import Mathlib

/-!
# System-call layer of pintos-kaist (`userprog/syscall.c`)

A shallow embedding of the system-call handlers, the per-process file
descriptor table, the dispatcher and the fixed-point macros of
`threads/fixed-point.h`, followed by theorems about them.

Conventions of the embedding.

* Pointers and 64-bit registers are natural numbers, `0` is `NULL`.
* C `int` values are integers; arithmetic on the global counter wraps to
  32 bits (two's complement), as the compiled code does.
* Everything outside `syscall.c` (file system, console, process layer,
  allocator) is a collaborator: each call is appended to a log kept in the
  state, and its result is read from an oracle indexed by the position of the
  call in the log, so any sequence of collaborator answers can be expressed.
* A handler is a function from the kernel state to an outcome and a new
  state; `thread_exit` and `power_off` do not return, which is modelled by
  the outcomes `exited` and `halted`.
-/

namespace Pintos

/-! ## Machine integers -/

/-- Conversion of an integer to C `int`: the low 32 bits, two's complement. -/
def to_int (x : Int) : Int := (x + 2147483648) % 4294967296 - 2147483648

/-- Conversion of a 64-bit register to C `unsigned`: the low 32 bits. -/
def to_unsigned (r : Nat) : Nat := r % 4294967296

/-- Conversion of a C `int` to a 64-bit register or pointer (sign extension). -/
def to_reg (v : Int) : Nat := (v % 18446744073709551616).toNat

/-! ## Data model -/

/-- The entry type `struct fd_elem` of `userprog/syscall.h`: a descriptor and the
open-file pointer bound to it (the intrusive `list_elem` is the position in the
list). -/
structure fd_elem where
  fd : Int
  file_ptr : Nat
deriving DecidableEq, Repr

/-- The registers of `struct intr_frame` that `syscall_handler` reads or writes. -/
structure intr_frame where
  rax : Nat
  rdi : Nat
  rsi : Nat
  rdx : Nat
deriving DecidableEq, Repr

/-- Calls that leave `syscall.c`, with their arguments. -/
inductive Effect where
  | power_off
  | printf_exit (status : Int)
  | printf_system_call
  | thread_exit
  | lock_acquire
  | lock_release
  | process_fork (name : Nat)
  | sema_down (tid : Int)
  | malloc
  | free
  | strlcpy (dst src : Nat)
  | process_exec (copy : Nat)
  | process_wait (pid : Int)
  | filesys_create (file : Nat) (initial_size : Nat)
  | filesys_remove (file : Nat)
  | filesys_open (file : Nat)
  | file_deny_write (file : Nat)
  | file_length (file : Nat)
  | input_getc
  | putbuf (buffer : Nat) (size : Nat)
  | file_read (file : Nat) (buffer : Nat) (size : Nat)
  | file_write (file : Nat) (buffer : Nat) (size : Nat)
  | file_seek (file : Nat) (position : Nat)
  | file_tell (file : Nat)
  | file_close (file : Nat)
deriving DecidableEq, Repr

/-- The call numbers of `syscall-nr.h` used by the `switch` of `syscall_handler`. -/
structure syscall_nr where
  SYS_HALT : Nat
  SYS_EXIT : Nat
  SYS_FORK : Nat
  SYS_EXEC : Nat
  SYS_WAIT : Nat
  SYS_CREATE : Nat
  SYS_REMOVE : Nat
  SYS_OPEN : Nat
  SYS_FILESIZE : Nat
  SYS_READ : Nat
  SYS_WRITE : Nat
  SYS_SEEK : Nat
  SYS_TELL : Nat
  SYS_CLOSE : Nat
  SYS_DUP2 : Nat

/-- The 15 call numbers as a list, in the order of the `case` labels. -/
def syscall_nr.all (n : syscall_nr) : List Nat :=
  [n.SYS_HALT, n.SYS_EXIT, n.SYS_FORK, n.SYS_EXEC, n.SYS_WAIT, n.SYS_CREATE,
   n.SYS_REMOVE, n.SYS_OPEN, n.SYS_FILESIZE, n.SYS_READ, n.SYS_WRITE, n.SYS_SEEK,
   n.SYS_TELL, n.SYS_CLOSE, n.SYS_DUP2]

/-- What `syscall.c` takes from the rest of the kernel. `result i` is the value
returned by the collaborator call logged at position `i`; the other fields are
reads of memory owned by other modules, at the time given by the log length. -/
structure World where
  /-- The macro `is_user_vaddr` of `threads/vaddr.h`. -/
  is_user_vaddr : Nat → Bool
  /-- The constant `TID_ERROR` of `threads/thread.h`. -/
  TID_ERROR : Int
  /-- The call numbers of `syscall-nr.h`. -/
  nr : syscall_nr
  /-- Result of the collaborator call logged at the given position. -/
  result : Nat → Int
  /-- Thread ids on `thread_current()->child_list`. -/
  child_list : Nat → List Int
  /-- The field `exit_status` of the child with the given thread id. -/
  child_exit_status : Nat → Int → Int
  /-- Value of `strcmp(file, thread_current()->name)`. -/
  strcmp_name : Nat → Nat → Int
  /-- Value left in the return register by a function that ends without `return`. -/
  no_return_value : Nat → Int

/-- The kernel state the handlers act on. -/
structure KState where
  /-- The list `thread_current()->fd_list`, head first. -/
  fd_list : List fd_elem
  /-- The global `g_fd_nr`. -/
  g_fd_nr : Int
  /-- Whether `syscall_lock` is held. -/
  syscall_lock : Bool
  /-- The field `thread_current()->exit_status`. -/
  exit_status : Int
  /-- The field `thread_current()->parent_if`. -/
  parent_if : intr_frame
  /-- Collaborator calls made so far, oldest first. -/
  log : List Effect
deriving DecidableEq, Repr

/-- How a handler ends. -/
inductive Outcome (α : Type) where
  /-- The handler returned a value to its caller. -/
  | ret (v : α)
  /-- The calling process was terminated by `thread_exit`. -/
  | exited
  /-- The machine was powered off. -/
  | halted
  /-- The kernel dereferenced a null pointer or failed an assertion. -/
  | fault
deriving DecidableEq, Repr

/-- A handler: a state transformer that may stop the process. -/
def K (α : Type) : Type := KState → Outcome α × KState

/-- Return a value without touching the state. -/
def K.pure {α : Type} (a : α) : K α := fun s => (Outcome.ret a, s)

/-- Sequencing: the continuation runs only if the first part returned. -/
def K.bind {α β : Type} (m : K α) (f : α → K β) : K β := fun s =>
  match m s with
  | (Outcome.ret a, s1) => f a s1
  | (Outcome.exited, s1) => (Outcome.exited, s1)
  | (Outcome.halted, s1) => (Outcome.halted, s1)
  | (Outcome.fault, s1) => (Outcome.fault, s1)

instance : Monad K where
  pure := K.pure
  bind := K.bind

/-- Read the state. -/
def K.get : K KState := fun s => (Outcome.ret s, s)

/-- Update the state. -/
def K.modify (f : KState → KState) : K Unit := fun s => (Outcome.ret (), f s)

/-- A collaborator call that returns: it is logged and its result is taken from
the oracle. -/
def K.call (w : World) (e : Effect) : K Int := fun s =>
  (Outcome.ret (w.result s.log.length), { s with log := s.log ++ [e] })

/-- A null-pointer dereference in kernel mode. -/
def K.fault {α : Type} : K α := fun s => (Outcome.fault, s)

/-- A collaborator call returning a C `int` (`tid_t`, `off_t`, `int`). -/
def K.call_int (w : World) (e : Effect) : K Int := fun s =>
  (Outcome.ret (to_int (w.result s.log.length)), { s with log := s.log ++ [e] })

/-- A collaborator call returning a pointer. -/
def K.call_ptr (w : World) (e : Effect) : K Nat := fun s =>
  (Outcome.ret (to_reg (w.result s.log.length)), { s with log := s.log ++ [e] })

/-- A collaborator call returning a C `bool`. -/
def K.call_bool (w : World) (e : Effect) : K Bool := fun s =>
  (Outcome.ret (decide (w.result s.log.length ≠ 0)), { s with log := s.log ++ [e] })

/-! ## Collaborators with a modelled effect -/

/-- Modelled from the spec: `lock_acquire` of `threads/synch.c` (not among the
sources); the I/O serialization lock is a single exclusive lock, held after the call. -/
def lock_acquire : K Unit := fun s =>
  (Outcome.ret (), { s with syscall_lock := true, log := s.log ++ [Effect.lock_acquire] })

/-- Modelled from the spec: `lock_release` of `threads/synch.c` (not among the
sources); the lock is free after the call. -/
def lock_release : K Unit := fun s =>
  (Outcome.ret (), { s with syscall_lock := false, log := s.log ++ [Effect.lock_release] })

/-- Modelled from the spec: `thread_exit` of `threads/thread.c` (not among the
sources) terminates the calling process and does not return. -/
def thread_exit {α : Type} : K α := fun s =>
  (Outcome.exited, { s with log := s.log ++ [Effect.thread_exit] })

/-- Modelled from the spec: `power_off` (not among the sources) never returns; it
powers down the machine. -/
def power_off {α : Type} : K α := fun s =>
  (Outcome.halted, { s with log := s.log ++ [Effect.power_off] })

/-- Modelled from the spec: `file_seek` of `filesys/file.c` (not among the sources)
dereferences its handle unconditionally, so a null handle is a kernel fault. -/
def file_seek (file : Nat) (position : Nat) : K Unit := fun s =>
  let s1 := { s with log := s.log ++ [Effect.file_seek file position] }
  if file = 0 then (Outcome.fault, s1) else (Outcome.ret (), s1)

/-- Modelled from the spec: `file_tell` of `filesys/file.c` (not among the sources)
dereferences its handle unconditionally, so a null handle is a kernel fault. -/
def file_tell (w : World) (file : Nat) : K Int := fun s =>
  let s1 := { s with log := s.log ++ [Effect.file_tell file] }
  if file = 0 then (Outcome.fault, s1) else (Outcome.ret (to_int (w.result s.log.length)), s1)

/-- Modelled from the spec: `list_insert_ordered` of `lib/kernel/list.c` (not among
the sources) inserts the entry keeping ascending order: before the first element
that the entry is `less` than, or at the end. -/
def list_insert_ordered (l : List fd_elem) (x : fd_elem)
    (less : fd_elem → fd_elem → Bool) : List fd_elem :=
  match l with
  | [] => [x]
  | e :: es => if less x e then x :: e :: es else e :: list_insert_ordered es x less

/-! ## The descriptor table -/

/-- The comparator `fd_cmp`. -/
def fd_cmp (a b : fd_elem) : Bool := decide (a.fd < b.fd)

/-- The lookup `fd_to_file`: the handle of the first entry with the descriptor,
`NULL` if there is none. -/
def fd_to_file (l : List fd_elem) (fd : Int) : Nat :=
  match l with
  | [] => 0
  | e :: es => if e.fd = fd then e.file_ptr else fd_to_file es fd

/-- The search loop of `SyS_close`: the first entry with the descriptor. -/
def close_fd_elem (l : List fd_elem) (fd : Int) : Option fd_elem :=
  match l with
  | [] => none
  | tmp :: es => if fd = tmp.fd then some tmp else close_fd_elem es fd

/-- Modelled from the spec: `list_remove` of `lib/kernel/list.c` (not among the
sources) unlinks the element it is given. In `SyS_close` that element is where the
search loop stopped, so the result is the list without the first entry with the
descriptor. -/
def list_remove (l : List fd_elem) (fd : Int) : List fd_elem :=
  match l with
  | [] => []
  | tmp :: es => if fd = tmp.fd then es else tmp :: list_remove es fd

/-! ## Handlers -/

/-- The handler `SyS_exit`: record the status, report it, terminate the process. -/
def SyS_exit {α : Type} (w : World) (status : Int) : K α := do
  K.modify (fun s => { s with exit_status := status })
  let _ ← K.call w (Effect.printf_exit status)
  thread_exit

/-- The validator `check_address`. -/
def check_address (w : World) (addr : Nat) : K Unit :=
  if w.is_user_vaddr addr = false then SyS_exit w (-1) else pure ()

/-- The handler `SyS_halt`. -/
def SyS_halt : K Unit := power_off

/-- The handler `SyS_fork`. -/
def SyS_fork (w : World) (thread_name : Nat) : K Int := do
  check_address w thread_name
  let child_pid ← K.call_int w (Effect.process_fork thread_name)
  if child_pid = w.TID_ERROR then pure w.TID_ERROR else do
  let s ← K.get
  match (w.child_list s.log.length).find? (fun tid => decide (tid = child_pid)) with
  | none => pure w.TID_ERROR
  | some tid => do
    let _ ← K.call w (Effect.sema_down tid)
    let s1 ← K.get
    if w.child_exit_status s1.log.length tid = w.TID_ERROR then pure w.TID_ERROR
    else pure child_pid

/-- The handler `SyS_exec`. The copy of the command line is written through the
pointer `malloc` returned, without a check. -/
def SyS_exec (w : World) (cmd_line : Nat) : K Int := do
  check_address w cmd_line
  let copy ← K.call_ptr w Effect.malloc
  if copy = 0 then K.fault else do
  let _ ← K.call w (Effect.strlcpy copy cmd_line)
  let result ← K.call_int w (Effect.process_exec copy)
  let _ ← K.call w Effect.free
  if result = -1 then SyS_exit w (-1) else do
  K.modify (fun s => { s with exit_status := result })
  pure result

/-- The handler `SyS_wait`. -/
def SyS_wait (w : World) (pid : Int) : K Int :=
  K.call_int w (Effect.process_wait pid)

/-- The handler `SyS_create`. -/
def SyS_create (w : World) (file : Nat) (initial_size : Nat) : K Bool := do
  check_address w file
  if file = 0 then SyS_exit w (-1) else do
  lock_acquire
  let success ← K.call_bool w (Effect.filesys_create file initial_size)
  lock_release
  pure success

/-- The handler `SyS_remove`. -/
def SyS_remove (w : World) (file : Nat) : K Bool := do
  check_address w file
  if file = 0 then pure false else do
  lock_acquire
  let success ← K.call_bool w (Effect.filesys_remove file)
  lock_release
  pure success

/-- The handler `SyS_open`. -/
def SyS_open (w : World) (file : Nat) : K Int := do
  check_address w file
  if file = 0 then pure (-1) else do
  let file_open ← K.call_ptr w (Effect.filesys_open file)
  if file_open = 0 then pure (-1) else do
  let fd_elem_ptr ← K.call_ptr w Effect.malloc
  if fd_elem_ptr = 0 then pure (-1) else do
  let s ← K.get
  let new_elem : fd_elem := { fd := s.g_fd_nr, file_ptr := file_open }
  K.modify (fun s => { s with g_fd_nr := to_int (s.g_fd_nr + 1) })
  let s1 ← K.get
  if w.strcmp_name s1.log.length file = 0 then do
    let _ ← K.call w (Effect.file_deny_write file_open)
    K.modify (fun s => { s with fd_list := list_insert_ordered s.fd_list new_elem fd_cmp })
    pure new_elem.fd
  else do
    K.modify (fun s => { s with fd_list := list_insert_ordered s.fd_list new_elem fd_cmp })
    pure new_elem.fd

/-- The handler `SyS_filesize`. -/
def SyS_filesize (w : World) (fd : Int) : K Int := do
  let s ← K.get
  let file_ptr := fd_to_file s.fd_list fd
  if file_ptr = 0 then pure (-1) else K.call_int w (Effect.file_length file_ptr)

/-- The handler `SyS_read`. For `fd == 0` the function ends without a `return`. -/
def SyS_read (w : World) (fd : Int) (buffer : Nat) (size : Nat) : K Int := do
  check_address w buffer
  if fd = 0 then do
    lock_acquire
    let _count ← K.call w Effect.input_getc
    lock_release
    let s ← K.get
    pure (w.no_return_value s.log.length)
  else if fd = 1 then SyS_exit w (-1)
  else do
    let s ← K.get
    let fd_file := fd_to_file s.fd_list fd
    if fd_file ≠ 0 then do
      lock_acquire
      let count ← K.call_int w (Effect.file_read fd_file buffer size)
      lock_release
      pure count
    else SyS_exit w (-1)

/-- The handler `SyS_write`. -/
def SyS_write (w : World) (fd : Int) (buffer : Nat) (size : Nat) : K Int := do
  check_address w buffer
  if fd = 1 then do
    lock_acquire
    let _ ← K.call w (Effect.putbuf buffer size)
    lock_release
    pure (to_int size)
  else if fd = 0 then pure (-1)
  else do
    let s ← K.get
    let fd_file := fd_to_file s.fd_list fd
    if fd_file = 0 then pure (-1) else do
    lock_acquire
    let count ← K.call_int w (Effect.file_write fd_file buffer size)
    lock_release
    pure count

/-- The handler `SyS_close`. -/
def SyS_close (w : World) (fd : Int) : K Unit := do
  let s ← K.get
  match close_fd_elem s.fd_list fd with
  | none => SyS_exit w (-1)
  | some e => do
    K.modify (fun s => { s with fd_list := list_remove s.fd_list fd })
    lock_acquire
    let _ ← K.call w (Effect.file_close e.file_ptr)
    lock_release
    let _ ← K.call w Effect.free
    pure ()

/-- The handler `SyS_seek`. -/
def SyS_seek (fd : Int) (position : Nat) : K Unit := do
  let s ← K.get
  file_seek (fd_to_file s.fd_list fd) position

/-- The handler `SyS_tell`. -/
def SyS_tell (w : World) (fd : Int) : K Nat := do
  let s ← K.get
  let pos ← file_tell w (fd_to_file s.fd_list fd)
  pure (to_unsigned (to_reg pos))

/-- The handler `SyS_dup2`. The new entry is written through the pointer `malloc`
returned, without a check, and its `file_ptr` is assigned `old_fd`. -/
def SyS_dup2 (w : World) (old_fd new_fd : Int) : K Int := do
  let s ← K.get
  let old_file := fd_to_file s.fd_list old_fd
  let new_file := fd_to_file s.fd_list new_fd
  if old_file = 0 then pure (-1)
  else if new_fd = old_fd then pure new_fd
  else do
    if new_file ≠ 0 then SyS_close w new_fd else pure ()
    let new_fd_elem ← K.call_ptr w Effect.malloc
    if new_fd_elem = 0 then K.fault else do
    let new_elem : fd_elem := { file_ptr := to_reg old_fd, fd := new_fd }
    K.modify (fun s => { s with fd_list := list_insert_ordered s.fd_list new_elem fd_cmp })
    pure new_fd

/-! ## Initialisation and dispatch -/

/-- The part of `syscall_init` that touches the state of this module: the counter
starts at 3 and the lock is initialised free (the MSR writes set up the trap path). -/
def syscall_init (s : KState) : KState :=
  { s with g_fd_nr := 3, syscall_lock := false }

/-- The state set up by `syscall_init` for a process whose descriptor table is empty. -/
def init_state (s0 : KState) : KState :=
  syscall_init { s0 with fd_list := [] }

/-- The value a C `bool` leaves in a register. -/
def bool_reg (b : Bool) : Nat := if b then 1 else 0

/-- The dispatcher `syscall_handler`: the frame is copied to `parent_if`, then the
`switch` on `f->R.rax` runs; the result is the frame as the handler leaves it. -/
def syscall_handler (w : World) (f : intr_frame) : K intr_frame := do
  K.modify (fun s => { s with parent_if := f })
  if f.rax = w.nr.SYS_HALT then do
    SyS_halt
    pure f
  else if f.rax = w.nr.SYS_EXIT then SyS_exit w (to_int f.rdi)
  else if f.rax = w.nr.SYS_FORK then do
    let r ← SyS_fork w f.rdi
    pure { f with rax := to_reg r }
  else if f.rax = w.nr.SYS_EXEC then do
    let r ← SyS_exec w f.rdi
    pure { f with rax := to_reg r }
  else if f.rax = w.nr.SYS_WAIT then do
    let r ← SyS_wait w (to_int f.rdi)
    pure { f with rax := to_reg r }
  else if f.rax = w.nr.SYS_CREATE then do
    let r ← SyS_create w f.rdi (to_unsigned f.rsi)
    pure { f with rax := bool_reg r }
  else if f.rax = w.nr.SYS_REMOVE then do
    let r ← SyS_remove w f.rdi
    pure { f with rax := bool_reg r }
  else if f.rax = w.nr.SYS_OPEN then do
    let r ← SyS_open w f.rdi
    pure { f with rax := to_reg r }
  else if f.rax = w.nr.SYS_FILESIZE then do
    let r ← SyS_filesize w (to_int f.rdi)
    pure { f with rax := to_reg r }
  else if f.rax = w.nr.SYS_READ then do
    let r ← SyS_read w (to_int f.rdi) f.rsi (to_unsigned f.rdx)
    pure { f with rax := to_reg r }
  else if f.rax = w.nr.SYS_WRITE then do
    let r ← SyS_write w (to_int f.rdi) f.rsi (to_unsigned f.rdx)
    pure { f with rax := to_reg r }
  else if f.rax = w.nr.SYS_SEEK then do
    SyS_seek (to_int f.rdi) (to_unsigned f.rsi)
    pure f
  else if f.rax = w.nr.SYS_TELL then do
    let r ← SyS_tell w (to_int f.rdi)
    pure { f with rax := r }
  else if f.rax = w.nr.SYS_CLOSE then do
    SyS_close w (to_int f.rdi)
    pure f
  else if f.rax = w.nr.SYS_DUP2 then do
    let _ ← SyS_dup2 w (to_int f.rdi) (to_int f.rsi)
    pure f
  else do
    let _ ← K.call w Effect.printf_system_call
    thread_exit

/-! ## Sequences of descriptor-table calls -/

/-- A call on the descriptor table made by the process. -/
inductive Call where
  | sys_open (file : Nat)
  | sys_close (fd : Int)
  | sys_dup2 (old_fd new_fd : Int)
deriving DecidableEq, Repr

/-- Run one call; the value is what the handler returned (`none` for `void`). -/
def step (w : World) (c : Call) : K (Option Int) :=
  match c with
  | Call.sys_open file => do
    let r ← SyS_open w file
    pure (some r)
  | Call.sys_close fd => do
    SyS_close w fd
    pure none
  | Call.sys_dup2 old_fd new_fd => do
    let r ← SyS_dup2 w old_fd new_fd
    pure (some r)

/-- Run a sequence of calls from a state. The process makes the next call only if
the previous one returned; the result is the state after the last call made. -/
def exec_calls (w : World) (cs : List Call) (s : KState) : KState :=
  match cs with
  | [] => s
  | c :: rest =>
    match step w c s with
    | (Outcome.ret _, s1) => exec_calls w rest s1
    | (_, s1) => s1

/-- The descriptors returned by the successful `open` calls of a sequence, in the
order of the calls (an `open` that fails returns -1). -/
def open_results (w : World) (cs : List Call) (s : KState) : List Int :=
  match cs with
  | [] => []
  | c :: rest =>
    match step w c s with
    | (Outcome.ret r, s1) =>
      match c, r with
      | Call.sys_open _, some fd => if fd = -1 then open_results w rest s1
                                else fd :: open_results w rest s1
      | _, _ => open_results w rest s1
    | (_, _) => []

/-- The descriptors of a table, in table order. -/
def fds (l : List fd_elem) : List Int := l.map (fun e => e.fd)

/-! ## Notions used in the statements -/

/-- The state in which `SyS_exit (-1)` leaves the process: the status is recorded, the
exit message printed and the thread ended; nothing else changes. -/
def killed (s : KState) : KState :=
  { s with exit_status := -1,
           log := s.log ++ [Effect.printf_exit (-1), Effect.thread_exit] }

/-- The state after `SyS_close (fd)` has removed the first entry of `fd` and released
its handle under the lock. -/
def closed (s : KState) (fd : Int) : KState :=
  { s with fd_list := list_remove s.fd_list fd, syscall_lock := false,
           log := s.log ++ [Effect.lock_acquire, Effect.file_close (fd_to_file s.fd_list fd),
                            Effect.lock_release, Effect.free] }

/-- The table is in ascending descriptor order. -/
def ascending (l : List fd_elem) : Prop := List.Pairwise (fun a b => a ≤ b) (fds l)

instance (l : List fd_elem) : Decidable (ascending l) := by
  unfold ascending
  infer_instance

/-- The number of `open` calls in a sequence. -/
def count_open (cs : List Call) : Nat :=
  match cs with
  | [] => 0
  | Call.sys_open _ :: rest => count_open rest + 1
  | _ :: rest => count_open rest

/-- No `dup2` of the sequence names descriptor 0 or 1 as its new descriptor. -/
def dup2_targets_unreserved (cs : List Call) : Bool :=
  match cs with
  | [] => true
  | Call.sys_dup2 _ new_fd :: rest =>
    decide (new_fd ≠ 0) && decide (new_fd ≠ 1) && dup2_targets_unreserved rest
  | _ :: rest => dup2_targets_unreserved rest

/-! ## A concrete environment -/

/-- The call numbers of the `syscall-nr.h` that pintos-kaist ships. -/
def demo_nr : syscall_nr :=
  { SYS_HALT := 0, SYS_EXIT := 1, SYS_FORK := 2, SYS_EXEC := 3, SYS_WAIT := 4,
    SYS_CREATE := 5, SYS_REMOVE := 6, SYS_OPEN := 7, SYS_FILESIZE := 8, SYS_READ := 9,
    SYS_WRITE := 10, SYS_SEEK := 11, SYS_TELL := 12, SYS_CLOSE := 13, SYS_DUP2 := 22 }

/-- An environment in which user addresses lie below `KERN_BASE = 0x8004000000`,
every collaborator call succeeds, and the call logged at position `i` returns the
kernel address `0x800C100000 + 16 * (i mod 4096)`. -/
def demo_world : World :=
  { is_user_vaddr := fun a => decide (a < 549822922752)
    TID_ERROR := -1
    nr := demo_nr
    result := fun i => 549958189056 + 16 * ((i : Int) % 4096)
    child_list := fun _ => []
    child_exit_status := fun _ _ => 0
    strcmp_name := fun _ _ => 1
    no_return_value := fun _ => 0 }

/-- A process that has made no call yet, as `syscall_init` leaves the module. -/
def demo_state : KState :=
  init_state { fd_list := [], g_fd_nr := 0, syscall_lock := false, exit_status := 0,
               parent_if := { rax := 0, rdi := 0, rsi := 0, rdx := 0 }, log := [] }

/-- A sequence of `n` rounds, each an `open` followed by the `close` of the descriptor
that `open` is issued when the counter is `c` at the start of the round. -/
def open_close_rounds (file : Nat) (n : Nat) (c : Int) : List Call :=
  match n with
  | 0 => []
  | k + 1 =>
    Call.sys_open file :: Call.sys_close c :: open_close_rounds file k (to_int (c + 1))

/-- The concrete environment, except that the collaborator call logged at position 1
returns 0: for an `open` made first, `filesys_open` succeeds and `malloc` returns
`NULL`. -/
def no_memory_world : World :=
  { demo_world with result := fun i => if i = 1 then 0 else demo_world.result i }

/-- The number of `file_close` calls in a log. -/
def count_file_close (log : List Effect) : Nat :=
  match log with
  | [] => 0
  | Effect.file_close _ :: rest => count_file_close rest + 1
  | _ :: rest => count_file_close rest

/-- The number of `input_getc` calls in a log. -/
def count_input_getc (log : List Effect) : Nat :=
  match log with
  | [] => 0
  | Effect.input_getc :: rest => count_input_getc rest + 1
  | _ :: rest => count_input_getc rest

/-! ## Fixed point (`threads/fixed-point.h`) -/

/-- Conversion of an integer to `int64_t`: the low 64 bits, two's complement. -/
def to_int64 (x : Int) : Int :=
  (x + 9223372036854775808) % 18446744073709551616 - 9223372036854775808

/-- The operator `<<` on an `int`: multiplication by `2 ^ k`, kept to 32 bits. -/
def shl (x : Int) (k : Nat) : Int := to_int (x * 2 ^ k)

/-- The macro `fp_f`, `(1 << 14)`. -/
def fp_f : Int := shl 1 14

/-- The macro `FP(x)`, `((x) << 14)`. -/
def FP (x : Int) : Int := shl x 14

/-- The macro `FP2INT(x)`, `((x) >> 14)`, an arithmetic shift. -/
def FP2INT (x : Int) : Int := x >>> (14 : Nat)

/-- The macro `MULL(x, y)`, `((((int64_t) (x)) * (y)) / (fp_f))`: a 64-bit product and
a division that truncates toward zero. -/
def MULL (x y : Int) : Int := to_int64 (Int.tdiv (to_int64 (to_int64 x * y)) fp_f)


/-! ## The lock discipline, read off the log -/

/-- Where a handler stands with respect to `syscall_lock`: not holding it, just
acquired, or acquired with the guarded collaborator call made. -/
inductive LockPhase where
  | free
  | acquired
  | called
deriving DecidableEq, Repr

/-- The effect of one logged call on the phase; `none` when the call breaks the
discipline: an acquire while held, a release while free or before the guarded call,
a second call before the release. -/
def lock_phase_step (p : LockPhase) (e : Effect) : Option LockPhase :=
  match p, e with
  | LockPhase.free, Effect.lock_acquire => some LockPhase.acquired
  | LockPhase.free, Effect.lock_release => none
  | LockPhase.free, _ => some LockPhase.free
  | LockPhase.acquired, Effect.lock_acquire => none
  | LockPhase.acquired, Effect.lock_release => none
  | LockPhase.acquired, _ => some LockPhase.called
  | LockPhase.called, Effect.lock_release => some LockPhase.free
  | LockPhase.called, _ => none

/-- The phase after a sequence of logged calls. -/
def lock_phase_run (p : LockPhase) (es : List Effect) : Option LockPhase :=
  match es with
  | [] => some p
  | e :: rest =>
    match lock_phase_step p e with
    | some q => lock_phase_run q rest
    | none => none

/-- A sequence of logged calls that starts with the lock free keeps the discipline
and ends with the lock free. -/
def lock_discipline (es : List Effect) : Bool :=
  decide (lock_phase_run LockPhase.free es = some LockPhase.free)

/-- A handler that started in `s` and stopped in `s1` kept the lock discipline: it
only appended to the log, what it appended keeps the discipline, and the lock flag
is free in `s1`. -/
def lock_respected (s s1 : KState) : Bool :=
  decide (s1.log.take s.log.length = s.log) &&
    lock_discipline (s1.log.drop s.log.length) && !s1.syscall_lock

/-! # Theorems -/

/-! ## Running the primitives -/

@[simp] theorem pure_run {α : Type} (a : α) (s : KState) :
    (pure a : K α) s = (Outcome.ret a, s) := rfl

@[simp] theorem bind_run {α β : Type} (m : K α) (f : α → K β) (s : KState) :
    (m >>= f) s = K.bind m f s := rfl

@[simp] theorem get_run (s : KState) : K.get s = (Outcome.ret s, s) := rfl

@[simp] theorem modify_run (f : KState → KState) (s : KState) :
    K.modify f s = (Outcome.ret (), f s) := rfl

@[simp] theorem call_run (w : World) (e : Effect) (s : KState) :
    K.call w e s = (Outcome.ret (w.result s.log.length), { s with log := s.log ++ [e] }) := rfl

@[simp] theorem call_int_run (w : World) (e : Effect) (s : KState) :
    K.call_int w e s
      = (Outcome.ret (to_int (w.result s.log.length)), { s with log := s.log ++ [e] }) := rfl

@[simp] theorem call_ptr_run (w : World) (e : Effect) (s : KState) :
    K.call_ptr w e s
      = (Outcome.ret (to_reg (w.result s.log.length)), { s with log := s.log ++ [e] }) := rfl

@[simp] theorem call_bool_run (w : World) (e : Effect) (s : KState) :
    K.call_bool w e s
      = (Outcome.ret (decide (w.result s.log.length ≠ 0)), { s with log := s.log ++ [e] }) :=
  rfl

@[simp] theorem fault_run {α : Type} (s : KState) :
    (K.fault : K α) s = (Outcome.fault, s) := rfl

@[simp] theorem lock_acquire_run (s : KState) : lock_acquire s =
    (Outcome.ret (), { s with syscall_lock := true, log := s.log ++ [Effect.lock_acquire] }) :=
  rfl

@[simp] theorem lock_release_run (s : KState) : lock_release s =
    (Outcome.ret (), { s with syscall_lock := false, log := s.log ++ [Effect.lock_release] }) :=
  rfl

@[simp] theorem thread_exit_run {α : Type} (s : KState) : (thread_exit : K α) s =
    (Outcome.exited, { s with log := s.log ++ [Effect.thread_exit] }) := rfl

theorem bind_exited {α β : Type} (m : K α) (f : α → K β) (s t : KState)
    (h : m s = (Outcome.exited, t)) : (m >>= f) s = (Outcome.exited, t) := by
  simp [K.bind, h]

@[simp] theorem SyS_exit_run {α : Type} (w : World) (s : KState) :
    SyS_exit w (-1) s = ((Outcome.exited : Outcome α), killed s) := by
  simp [SyS_exit, killed, K.bind]

@[simp] theorem check_address_run (w : World) (s : KState) (p : Nat) :
    check_address w p s =
      if w.is_user_vaddr p = false then (Outcome.exited, killed s) else (Outcome.ret (), s) := by
  unfold check_address
  split
  · exact SyS_exit_run w s
  · rfl

/-! ## What each table call does -/

theorem SyS_close_none (w : World) (s : KState) (fd : Int)
    (h : close_fd_elem s.fd_list fd = none) :
    SyS_close w fd s = (Outcome.exited, killed s) := by
  simp [SyS_close, K.bind, h]

theorem SyS_close_some (w : World) (s : KState) (fd : Int) (e : fd_elem)
    (h : close_fd_elem s.fd_list fd = some e) :
    SyS_close w fd s = (Outcome.ret (),
      { s with fd_list := list_remove s.fd_list fd, syscall_lock := false,
               log := s.log ++ [Effect.lock_acquire, Effect.file_close e.file_ptr,
                                Effect.lock_release, Effect.free] }) := by
  simp [SyS_close, K.bind, h]

theorem SyS_open_cases (w : World) (s : KState) (file : Nat) :
    ((SyS_open w file s).2.fd_list = s.fd_list ∧ (SyS_open w file s).2.g_fd_nr = s.g_fd_nr ∧
      ((SyS_open w file s).1 = Outcome.ret (-1) ∨ (SyS_open w file s).1 = Outcome.exited)) ∨
    (∃ h : Nat, h ≠ 0 ∧ (SyS_open w file s).1 = Outcome.ret s.g_fd_nr ∧
      (SyS_open w file s).2.g_fd_nr = to_int (s.g_fd_nr + 1) ∧
      (SyS_open w file s).2.fd_list
        = list_insert_ordered s.fd_list { fd := s.g_fd_nr, file_ptr := h } fd_cmp) := by
  unfold SyS_open
  by_cases hv : w.is_user_vaddr file = false
  · simp [K.bind, hv, killed]
  by_cases hf : file = 0
  · subst hf
    simp [K.bind, hv]
  by_cases ho : to_reg (w.result s.log.length) = 0
  · simp [K.bind, hv, hf, ho]
  by_cases hm : to_reg (w.result (s.log.length + 1)) = 0
  · simp [K.bind, hv, hf, ho, hm]
  right
  refine ⟨to_reg (w.result s.log.length), ho, ?_⟩
  by_cases hn : w.strcmp_name (s.log.length + 1 + 1) file = 0 <;>
    simp [K.bind, hv, hf, ho, hm, hn]

/-! ## The list primitives -/

theorem close_fd_elem_none (l : List fd_elem) (fd : Int) (h : close_fd_elem l fd = none) :
    fd_to_file l fd = 0 := by
  induction l with
  | nil => rfl
  | cons e es ih =>
    unfold close_fd_elem at h
    unfold fd_to_file
    by_cases he : fd = e.fd
    · simp [he] at h
    · have he2 : ¬ e.fd = fd := fun h2 => he h2.symm
      simp only [he, if_false] at h
      simp only [he2, if_false]
      exact ih h

theorem close_fd_elem_some (l : List fd_elem) (fd : Int) (e : fd_elem)
    (h : close_fd_elem l fd = some e) : fd_to_file l fd = e.file_ptr ∧ e.fd = fd ∧ e ∈ l := by
  induction l with
  | nil => simp [close_fd_elem] at h
  | cons x xs ih =>
    unfold close_fd_elem at h
    unfold fd_to_file
    by_cases he : fd = x.fd
    · simp only [he, if_true, Option.some.injEq] at h
      subst h
      simp [he]
    · have he2 : ¬ x.fd = fd := fun h2 => he h2.symm
      simp only [he, if_false] at h
      simp only [he2, if_false]
      obtain ⟨h1, h2, h3⟩ := ih h
      exact ⟨h1, h2, List.mem_cons_of_mem _ h3⟩

theorem fd_to_file_resolves (l : List fd_elem) (fd : Int) (h : fd_to_file l fd ≠ 0) :
    ∃ e, close_fd_elem l fd = some e := by
  cases hc : close_fd_elem l fd with
  | none => exact absurd (close_fd_elem_none l fd hc) h
  | some e => exact ⟨e, rfl⟩

theorem list_remove_sublist (l : List fd_elem) (fd : Int) :
    List.Sublist (list_remove l fd) l := by
  induction l with
  | nil => exact List.Sublist.slnil
  | cons x xs ih =>
    unfold list_remove
    split
    · exact List.sublist_cons_self x xs
    · exact List.Sublist.cons₂ x ih

theorem mem_list_insert_ordered (l : List fd_elem) (x e : fd_elem) :
    e ∈ list_insert_ordered l x fd_cmp ↔ e = x ∨ e ∈ l := by
  induction l with
  | nil => simp [list_insert_ordered]
  | cons y ys ih =>
    unfold list_insert_ordered
    split
    · simp
    · simp only [List.mem_cons, ih]
      tauto

theorem ascending_list_remove (l : List fd_elem) (fd : Int) (h : ascending l) :
    ascending (list_remove l fd) :=
  List.Pairwise.sublist (List.Sublist.map _ (list_remove_sublist l fd)) h

theorem ascending_list_insert_ordered (l : List fd_elem) (x : fd_elem) (h : ascending l) :
    ascending (list_insert_ordered l x fd_cmp) := by
  induction l with
  | nil => simp [list_insert_ordered, ascending, fds]
  | cons y ys ih =>
    unfold list_insert_ordered
    unfold ascending fds at h
    rw [List.map_cons, List.pairwise_cons] at h
    by_cases hlt : fd_cmp x y = true
    · simp only [hlt, if_true]
      unfold ascending fds
      simp only [List.map_cons, List.pairwise_cons]
      have hxy : x.fd < y.fd := by simpa [fd_cmp] using hlt
      refine ⟨?_, h.1, h.2⟩
      intro a ha
      rcases List.mem_cons.mp ha with ha | ha
      · omega
      · have := h.1 a ha
        omega
    · simp only [hlt, Bool.false_eq_true, if_false]
      have hxy : y.fd ≤ x.fd := by
        have : ¬ x.fd < y.fd := by simpa [fd_cmp] using hlt
        omega
      have ih2 := ih h.2
      unfold ascending fds at ih2 ⊢
      simp only [List.map_cons, List.pairwise_cons]
      refine ⟨?_, ih2⟩
      intro a ha
      obtain ⟨e, he, rfl⟩ := List.mem_map.mp ha
      rcases (mem_list_insert_ordered ys x e).mp he with he | he
      · subst he; exact hxy
      · exact h.1 e.fd (List.mem_map.mpr ⟨e, he, rfl⟩)

theorem SyS_close_found (w : World) (s : KState) (fd : Int) (e : fd_elem)
    (h : close_fd_elem s.fd_list fd = some e) :
    SyS_close w fd s = (Outcome.ret (), closed s fd) := by
  rw [SyS_close_some w s fd e h, closed, (close_fd_elem_some _ _ _ h).1]

theorem SyS_close_resolves (w : World) (s : KState) (fd : Int)
    (h : fd_to_file s.fd_list fd ≠ 0) :
    SyS_close w fd s = (Outcome.ret (), closed s fd) := by
  obtain ⟨e, he⟩ := fd_to_file_resolves s.fd_list fd h
  exact SyS_close_found w s fd e he

theorem SyS_dup2_unresolved (w : World) (s : KState) (old_fd new_fd : Int)
    (h : fd_to_file s.fd_list old_fd = 0) :
    SyS_dup2 w old_fd new_fd s = (Outcome.ret (-1), s) := by
  simp [SyS_dup2, K.bind, h]

theorem SyS_dup2_same (w : World) (s : KState) (a : Int)
    (h : fd_to_file s.fd_list a ≠ 0) :
    SyS_dup2 w a a s = (Outcome.ret a, s) := by
  simp [SyS_dup2, K.bind, h]

theorem SyS_dup2_fresh (w : World) (s : KState) (old_fd new_fd : Int)
    (h1 : fd_to_file s.fd_list old_fd ≠ 0) (h2 : new_fd ≠ old_fd)
    (h3 : fd_to_file s.fd_list new_fd = 0) :
    SyS_dup2 w old_fd new_fd s =
      if to_reg (w.result s.log.length) = 0 then
        (Outcome.fault, { s with log := s.log ++ [Effect.malloc] })
      else
        (Outcome.ret new_fd,
          { s with fd_list := list_insert_ordered s.fd_list
                     { fd := new_fd, file_ptr := to_reg old_fd } fd_cmp,
                   log := s.log ++ [Effect.malloc] }) := by
  by_cases hm : to_reg (w.result s.log.length) = 0 <;>
    simp [SyS_dup2, K.bind, h1, h2, h3, hm]

theorem SyS_dup2_rebind (w : World) (s : KState) (old_fd new_fd : Int)
    (h1 : fd_to_file s.fd_list old_fd ≠ 0) (h2 : new_fd ≠ old_fd)
    (h3 : fd_to_file s.fd_list new_fd ≠ 0) :
    SyS_dup2 w old_fd new_fd s =
      if to_reg (w.result (closed s new_fd).log.length) = 0 then
        (Outcome.fault, { closed s new_fd with log := (closed s new_fd).log ++ [Effect.malloc] })
      else
        (Outcome.ret new_fd,
          { closed s new_fd with
              fd_list := list_insert_ordered (closed s new_fd).fd_list
                     { fd := new_fd, file_ptr := to_reg old_fd } fd_cmp,
              log := (closed s new_fd).log ++ [Effect.malloc] }) := by
  have hc := SyS_close_resolves w s new_fd h3
  by_cases hm : to_reg (w.result (closed s new_fd).log.length) = 0 <;>
    simp [SyS_dup2, K.bind, h1, h2, h3, hm, hc]

/-- What a call can do to the table: entries are removed, then at most one entry is
inserted in order, whose descriptor is the counter (for `open`) or the new
descriptor (for `dup2`). -/
theorem step_table (w : World) (c : Call) (s : KState) :
    ∃ l, List.Sublist l s.fd_list ∧
      ((step w c s).2.fd_list = l ∨
        ∃ x, (step w c s).2.fd_list = list_insert_ordered l x fd_cmp ∧
          ((∃ file, c = Call.sys_open file ∧ x.fd = s.g_fd_nr) ∨
           (∃ old_fd, c = Call.sys_dup2 old_fd x.fd))) := by
  cases c with
  | sys_open file =>
    have hs : (step w (Call.sys_open file) s).2 = (SyS_open w file s).2 := by
      simp only [step, bind_run, K.bind]
      rcases SyS_open w file s with ⟨o, s1⟩
      cases o <;> rfl
    rw [hs]
    rcases SyS_open_cases w s file with h | ⟨p, _, _, _, h⟩
    · exact ⟨s.fd_list, List.Sublist.refl _, Or.inl h.1⟩
    · exact ⟨s.fd_list, List.Sublist.refl _, Or.inr ⟨_, h, Or.inl ⟨file, rfl, rfl⟩⟩⟩
  | sys_close fd =>
    have hs : (step w (Call.sys_close fd) s).2 = (SyS_close w fd s).2 := by
      simp only [step, bind_run, K.bind]
      rcases SyS_close w fd s with ⟨o, s1⟩
      cases o <;> rfl
    rw [hs]
    cases hc : close_fd_elem s.fd_list fd with
    | none =>
      rw [SyS_close_none w s fd hc]
      exact ⟨s.fd_list, List.Sublist.refl _, Or.inl rfl⟩
    | some e =>
      rw [SyS_close_found w s fd e hc]
      exact ⟨list_remove s.fd_list fd, list_remove_sublist _ _, Or.inl rfl⟩
  | sys_dup2 old_fd new_fd =>
    have hs : (step w (Call.sys_dup2 old_fd new_fd) s).2 = (SyS_dup2 w old_fd new_fd s).2 := by
      simp only [step, bind_run, K.bind]
      rcases SyS_dup2 w old_fd new_fd s with ⟨o, s1⟩
      cases o <;> rfl
    rw [hs]
    by_cases h1 : fd_to_file s.fd_list old_fd = 0
    · rw [SyS_dup2_unresolved w s old_fd new_fd h1]
      exact ⟨s.fd_list, List.Sublist.refl _, Or.inl rfl⟩
    by_cases h2 : new_fd = old_fd
    · subst h2
      rw [SyS_dup2_same w s new_fd h1]
      exact ⟨s.fd_list, List.Sublist.refl _, Or.inl rfl⟩
    by_cases h3 : fd_to_file s.fd_list new_fd = 0
    · rw [SyS_dup2_fresh w s old_fd new_fd h1 h2 h3]
      refine ⟨s.fd_list, List.Sublist.refl _, ?_⟩
      split
      · exact Or.inl rfl
      · exact Or.inr ⟨_, rfl, Or.inr ⟨old_fd, rfl⟩⟩
    · rw [SyS_dup2_rebind w s old_fd new_fd h1 h2 h3]
      refine ⟨list_remove s.fd_list new_fd, list_remove_sublist _ _, ?_⟩
      split
      · exact Or.inl rfl
      · exact Or.inr ⟨_, rfl, Or.inr ⟨old_fd, rfl⟩⟩

/-- Only `open` changes the counter. -/
theorem step_counter (w : World) (c : Call) (s : KState)
    (h : ∀ file, c ≠ Call.sys_open file) : (step w c s).2.g_fd_nr = s.g_fd_nr := by
  cases c with
  | sys_open file => exact absurd rfl (h file)
  | sys_close fd =>
    have hs : (step w (Call.sys_close fd) s).2 = (SyS_close w fd s).2 := by
      simp only [step, bind_run, K.bind]
      rcases SyS_close w fd s with ⟨o, s1⟩
      cases o <;> rfl
    rw [hs]
    cases hc : close_fd_elem s.fd_list fd with
    | none => rw [SyS_close_none w s fd hc]; rfl
    | some e => rw [SyS_close_found w s fd e hc]; rfl
  | sys_dup2 old_fd new_fd =>
    have hs : (step w (Call.sys_dup2 old_fd new_fd) s).2 = (SyS_dup2 w old_fd new_fd s).2 := by
      simp only [step, bind_run, K.bind]
      rcases SyS_dup2 w old_fd new_fd s with ⟨o, s1⟩
      cases o <;> rfl
    rw [hs]
    by_cases h1 : fd_to_file s.fd_list old_fd = 0
    · rw [SyS_dup2_unresolved w s old_fd new_fd h1]
    by_cases h2 : new_fd = old_fd
    · subst h2
      rw [SyS_dup2_same w s new_fd h1]
    by_cases h3 : fd_to_file s.fd_list new_fd = 0
    · rw [SyS_dup2_fresh w s old_fd new_fd h1 h2 h3]
      split <;> rfl
    · rw [SyS_dup2_rebind w s old_fd new_fd h1 h2 h3]
      split <;> rfl

/-! ## Address validation -/

/-- C1. For every pointer that `is_user_vaddr` rejects, each handler taking a pointer
(fork, exec, create, remove, open, read, write) terminates the calling process with
exit status -1 and does nothing else: the final state is the initial one with the
status cell set to -1 and the log extended by the exit message and `thread_exit`
only, so the descriptor table, the counter and the lock are unchanged and no
file-system, console or process collaborator is called. -/
theorem bad_pointer_terminates (w : World) (s : KState) (p : Nat)
    (h : w.is_user_vaddr p = false) :
    SyS_fork w p s = (Outcome.exited, killed s) ∧
    SyS_exec w p s = (Outcome.exited, killed s) ∧
    (∀ initial_size, SyS_create w p initial_size s = (Outcome.exited, killed s)) ∧
    SyS_remove w p s = (Outcome.exited, killed s) ∧
    SyS_open w p s = (Outcome.exited, killed s) ∧
    (∀ fd size, SyS_read w fd p size s = (Outcome.exited, killed s)) ∧
    (∀ fd size, SyS_write w fd p size s = (Outcome.exited, killed s)) ∧
    (killed s).exit_status = -1 ∧ (killed s).fd_list = s.fd_list ∧
    (killed s).g_fd_nr = s.g_fd_nr ∧ (killed s).syscall_lock = s.syscall_lock ∧
    (killed s).log = s.log ++ [Effect.printf_exit (-1), Effect.thread_exit] := by
  have hc : check_address w p s = (Outcome.exited, killed s) := by
    simp [h]
  refine ⟨?_, ?_, ?_, ?_, ?_, ?_, ?_, rfl, rfl, rfl, rfl, rfl⟩
  · exact bind_exited _ _ _ _ hc
  · exact bind_exited _ _ _ _ hc
  · intro n; exact bind_exited _ _ _ _ hc
  · exact bind_exited _ _ _ _ hc
  · exact bind_exited _ _ _ _ hc
  · intro fd n; exact bind_exited _ _ _ _ hc
  · intro fd n; exact bind_exited _ _ _ _ hc

/-- Witness of C1: in the concrete environment the kernel address `0x800C000000` is
rejected, and `open` on it terminates the process with status -1. -/
theorem bad_pointer_terminates_witness :
    demo_world.is_user_vaddr 549957140480 = false ∧
    SyS_open demo_world 549957140480 demo_state = (Outcome.exited, killed demo_state) ∧
    (killed demo_state).exit_status = -1 :=
  ⟨by decide,
   (bad_pointer_terminates demo_world demo_state 549957140480 (by decide)).2.2.2.2.1,
   (bad_pointer_terminates demo_world demo_state 549957140480 (by decide)).2.2.2.2.2.2.2.1⟩

/-! ## Ascending order of the table -/

theorem ascending_sublist (l l2 : List fd_elem) (hs : List.Sublist l l2) (h : ascending l2) :
    ascending l :=
  List.Pairwise.sublist (List.Sublist.map _ hs) h

theorem ascending_step (w : World) (c : Call) (s : KState) (h : ascending s.fd_list) :
    ascending (step w c s).2.fd_list := by
  obtain ⟨l, hl, hr⟩ := step_table w c s
  have hasc := ascending_sublist l s.fd_list hl h
  rcases hr with hr | ⟨x, hr, _⟩
  · rw [hr]; exact hasc
  · rw [hr]; exact ascending_list_insert_ordered l x hasc

theorem exec_calls_cons (w : World) (c : Call) (rest : List Call) (s : KState) :
    exec_calls w (c :: rest) s = (step w c s).2 ∨
    exec_calls w (c :: rest) s = exec_calls w rest (step w c s).2 := by
  rcases h : step w c s with ⟨o, s1⟩
  cases o <;> simp [exec_calls, h]

theorem ascending_exec_calls (w : World) (cs : List Call) :
    ∀ s, ascending s.fd_list → ascending (exec_calls w cs s).fd_list := by
  induction cs with
  | nil => intro s h; exact h
  | cons c rest ih =>
    intro s h
    have h1 := ascending_step w c s h
    rcases exec_calls_cons w c rest s with he | he
    · rw [he]; exact h1
    · rw [he]; exact ih _ h1

/-- C4. Ascending order is an invariant of the table: if the table is in ascending
descriptor order before an `open`, `close` or `dup2` call it is in ascending order
after it, hence after every sequence of such calls; in particular it is in
ascending order in every state reached from the empty table. -/
theorem table_stays_ascending (w : World) (c : Call) (s : KState)
    (h : ascending s.fd_list) :
    ascending (step w c s).2.fd_list ∧
    (∀ cs, ascending (exec_calls w cs s).fd_list) ∧
    (∀ cs s0, ascending (exec_calls w cs (init_state s0)).fd_list) :=
  ⟨ascending_step w c s h, fun cs => ascending_exec_calls w cs s h,
   fun cs s0 => ascending_exec_calls w cs (init_state s0) List.Pairwise.nil⟩

/-- Witness of C4. After `open` and `dup2 (3, 9)` the table holds descriptors 3 and 9 and
is in ascending order. The next `open` is issued descriptor 4, which goes between
them: the table is 3, 4, 9. Then `dup2 (3, 6)`, `close (4)` and another `open`
(descriptor 5) leave 3, 5, 6, 9. Both tables are in ascending order, and a table
holding 9 before 3 is not. -/
theorem table_stays_ascending_witness :
    fds (exec_calls demo_world [Call.sys_open 4096, Call.sys_dup2 3 9] demo_state).fd_list
      = [3, 9] ∧
    ascending (exec_calls demo_world [Call.sys_open 4096, Call.sys_dup2 3 9]
      demo_state).fd_list ∧
    fds (step demo_world (Call.sys_open 8192)
      (exec_calls demo_world [Call.sys_open 4096, Call.sys_dup2 3 9] demo_state)).2.fd_list
      = [3, 4, 9] ∧
    ascending (step demo_world (Call.sys_open 8192)
      (exec_calls demo_world [Call.sys_open 4096, Call.sys_dup2 3 9] demo_state)).2.fd_list ∧
    fds (exec_calls demo_world
      [Call.sys_open 8192, Call.sys_dup2 3 6, Call.sys_close 4, Call.sys_open 8192]
      (exec_calls demo_world [Call.sys_open 4096, Call.sys_dup2 3 9] demo_state)).fd_list
      = [3, 5, 6, 9] ∧
    ascending (exec_calls demo_world
      [Call.sys_open 8192, Call.sys_dup2 3 6, Call.sys_close 4, Call.sys_open 8192]
      (exec_calls demo_world [Call.sys_open 4096, Call.sys_dup2 3 9] demo_state)).fd_list ∧
    ¬ ascending [{ fd := 9, file_ptr := 3 }, { fd := 3, file_ptr := 549958189056 }] :=
  ⟨by decide, by decide, by decide,
   (table_stays_ascending demo_world (Call.sys_open 8192)
     (exec_calls demo_world [Call.sys_open 4096, Call.sys_dup2 3 9] demo_state)
     (by decide)).1,
   by decide,
   (table_stays_ascending demo_world (Call.sys_open 8192)
     (exec_calls demo_world [Call.sys_open 4096, Call.sys_dup2 3 9] demo_state)
     (by decide)).2.1
     [Call.sys_open 8192, Call.sys_dup2 3 6, Call.sys_close 4, Call.sys_open 8192],
   by decide⟩

/-! ## Duplication onto the same descriptor -/

/-- C8. For every descriptor `a` that resolves in the table, `dup2 (a, a)` returns `a`
and leaves the whole state as it was: the table and the counter are unchanged and
the log is not extended, so no handle is closed. -/
theorem dup2_same_is_noop (w : World) (s : KState) (a : Int)
    (h : fd_to_file s.fd_list a ≠ 0) :
    SyS_dup2 w a a s = (Outcome.ret a, s) :=
  SyS_dup2_same w s a h

/-- Witness of C8: after one `open` descriptor 3 resolves, and `dup2 (3, 3)` returns 3
without changing the state. -/
theorem dup2_same_is_noop_witness :
    fd_to_file (exec_calls demo_world [Call.sys_open 4096] demo_state).fd_list 3 ≠ 0 ∧
    SyS_dup2 demo_world 3 3 (exec_calls demo_world [Call.sys_open 4096] demo_state)
      = (Outcome.ret 3, exec_calls demo_world [Call.sys_open 4096] demo_state) :=
  ⟨by decide, dup2_same_is_noop demo_world _ 3 (by decide)⟩

/-! ## Dispatch -/

/-- Dispatch of an undefined call number. For every call number that is not one of
the 15 defined calls, dispatch reports the unhandled call and terminates the calling
process without invoking any handler: the frame is saved in `parent_if`,
`"system call!"` is printed and `thread_exit` is called; the exit-status cell, the
descriptor table, the counter and the lock are left as they were. -/
theorem unknown_call_terminates (w : World) (f : intr_frame) (s : KState)
    (h : f.rax ∉ w.nr.all) :
    syscall_handler w f s =
      (Outcome.exited,
        { s with parent_if := f,
                 log := s.log ++ [Effect.printf_system_call, Effect.thread_exit] }) := by
  simp only [syscall_nr.all, List.mem_cons, List.mem_singleton, not_or] at h
  obtain ⟨h0, h1, h2, h3, h4, h5, h6, h7, h8, h9, h10, h11, h12, h13, h14⟩ := h
  simp [syscall_handler, K.bind, h0, h1, h2, h3, h4, h5, h6, h7, h8, h9, h10, h11, h12, h13,
    h14]

/-- An instance of `unknown_call_terminates`: call number 99 is not defined, and
dispatching it terminates the concrete process with its status cell still 0. -/
theorem unknown_call_terminates_witness :
    (99 : Nat) ∉ demo_world.nr.all ∧
    syscall_handler demo_world { rax := 99, rdi := 0, rsi := 0, rdx := 0 } demo_state =
      (Outcome.exited,
        { demo_state with
            parent_if := { rax := 99, rdi := 0, rsi := 0, rdx := 0 },
            log := demo_state.log ++ [Effect.printf_system_call, Effect.thread_exit] }) :=
  ⟨by decide,
   unknown_call_terminates demo_world { rax := 99, rdi := 0, rsi := 0, rdx := 0 } demo_state
     (by decide)⟩

/-- C10, at the failing input. Call number 99 is not one of the 15 defined calls;
dispatching it terminates the process, and its exit-status cell is 0 afterwards,
not -1. -/
theorem unknown_call_status_not_set :
    (99 : Nat) ∉ demo_world.nr.all ∧
    (syscall_handler demo_world { rax := 99, rdi := 0, rsi := 0, rdx := 0 } demo_state).1
      = Outcome.exited ∧
    (syscall_handler demo_world { rax := 99, rdi := 0, rsi := 0, rdx := 0 }
      demo_state).2.exit_status = 0 ∧
    (syscall_handler demo_world { rax := 99, rdi := 0, rsi := 0, rdx := 0 }
      demo_state).2.exit_status ≠ -1 := by
  decide

/-- C9, at the failing input. With descriptor 3 open, the handler `SyS_dup2 (3, 5)`
returns 5, but dispatching call number `SYS_DUP2` with arguments 3 and 5 returns
the frame with `rax` still holding the call number 22: the result of the handler
is not stored in the return slot. -/
theorem dup2_result_not_stored :
    (SyS_dup2 demo_world 3 5 (exec_calls demo_world [Call.sys_open 4096] demo_state)).1
      = Outcome.ret 5 ∧
    (syscall_handler demo_world { rax := 22, rdi := 3, rsi := 5, rdx := 0 }
      (exec_calls demo_world [Call.sys_open 4096] demo_state)).1
      = Outcome.ret { rax := 22, rdi := 3, rsi := 5, rdx := 0 } ∧
    to_reg 5 ≠ 22 := by
  decide

/-! ## Duplicates in the table -/

/-- C3, at the failing input. From the initial state, `open` returns 3, `dup2 (3, 4)`
binds descriptor 4, and the next `open` is issued the counter value 4 as well: the
table then holds two entries with descriptor 4. -/
theorem open_after_dup2_duplicates :
    open_results demo_world [Call.sys_open 4096, Call.sys_dup2 3 4, Call.sys_open 8192]
      demo_state = [3, 4] ∧
    fds (exec_calls demo_world [Call.sys_open 4096, Call.sys_dup2 3 4, Call.sys_open 8192]
      demo_state).fd_list = [3, 4, 4] ∧
    ¬ List.Nodup (fds (exec_calls demo_world
      [Call.sys_open 4096, Call.sys_dup2 3 4, Call.sys_open 8192] demo_state).fd_list) := by
  decide

/-- C6, at the failing input. In the state reached by `open`, `dup2 (3, 4)`, `open`,
descriptor 4 resolves; `close (4)` returns, yet `fd_to_file` still finds descriptor 4
afterwards, and a second `close (4)` returns instead of terminating the caller. -/
theorem close_leaves_descriptor_bound :
    fd_to_file (exec_calls demo_world
      [Call.sys_open 4096, Call.sys_dup2 3 4, Call.sys_open 8192] demo_state).fd_list 4 ≠ 0 ∧
    (SyS_close demo_world 4 (exec_calls demo_world
      [Call.sys_open 4096, Call.sys_dup2 3 4, Call.sys_open 8192] demo_state)).1
      = Outcome.ret () ∧
    fd_to_file (SyS_close demo_world 4 (exec_calls demo_world
      [Call.sys_open 4096, Call.sys_dup2 3 4, Call.sys_open 8192] demo_state)).2.fd_list 4
      ≠ 0 ∧
    (SyS_close demo_world 4 (SyS_close demo_world 4 (exec_calls demo_world
      [Call.sys_open 4096, Call.sys_dup2 3 4, Call.sys_open 8192] demo_state)).2).1
      = Outcome.ret () := by
  decide

/-! ## The handle stored by `dup2` -/

/-- C7, at the failing input. After two `open` calls descriptors 3 and 4 resolve to
two distinct handles. `dup2 (3, 4)` returns 4 and calls `file_close` exactly once, on
the handle that was bound to 4; but afterwards `fd_to_file (4)` is the number 3, the
old descriptor stored as if it were a handle, and not the handle of descriptor 3. -/
theorem dup2_stores_descriptor_as_handle :
    fd_to_file (exec_calls demo_world [Call.sys_open 4096, Call.sys_open 8192]
      demo_state).fd_list 3 = 549958189056 ∧
    fd_to_file (exec_calls demo_world [Call.sys_open 4096, Call.sys_open 8192]
      demo_state).fd_list 4 = 549958189088 ∧
    (SyS_dup2 demo_world 3 4 (exec_calls demo_world [Call.sys_open 4096, Call.sys_open 8192]
      demo_state)).1 = Outcome.ret 4 ∧
    ((SyS_dup2 demo_world 3 4 (exec_calls demo_world [Call.sys_open 4096, Call.sys_open 8192]
      demo_state)).2.log.drop 4).filter
        (fun e => match e with
          | Effect.file_close _ => true
          | _ => false)
      = [Effect.file_close 549958189088] ∧
    fd_to_file (SyS_dup2 demo_world 3 4 (exec_calls demo_world
      [Call.sys_open 4096, Call.sys_open 8192] demo_state)).2.fd_list 4 = 3 ∧
    fd_to_file (SyS_dup2 demo_world 3 4 (exec_calls demo_world
      [Call.sys_open 4096, Call.sys_open 8192] demo_state)).2.fd_list 3 = 549958189056 := by
  decide

/-! ## Descriptor allocation -/

theorem to_int_succ (x : Int) : to_int (to_int x + 1) = to_int (x + 1) := by
  unfold to_int
  omega

theorem to_int_small (x : Int) (h1 : -2147483648 ≤ x) (h2 : x < 2147483648) :
    to_int x = x := by
  unfold to_int
  omega

theorem SyS_open_succeeds (w : World) (s : KState) (file : Nat)
    (hv : w.is_user_vaddr file = true) (hf : file ≠ 0)
    (hr : ∀ i, to_reg (w.result i) ≠ 0) :
    ∃ s1, SyS_open w file s = (Outcome.ret s.g_fd_nr, s1) ∧
      s1.g_fd_nr = to_int (s.g_fd_nr + 1) ∧
      s1.fd_list = list_insert_ordered s.fd_list
        { fd := s.g_fd_nr, file_ptr := to_reg (w.result s.log.length) } fd_cmp := by
  unfold SyS_open
  by_cases hn : w.strcmp_name (s.log.length + 1 + 1) file = 0 <;>
    simp [K.bind, hv, hf, hr, hn]

theorem open_results_open (w : World) (file : Nat) (rest : List Call) (s : KState) :
    open_results w (Call.sys_open file :: rest) s =
      match SyS_open w file s with
      | (Outcome.ret fd, s1) =>
        if fd = -1 then open_results w rest s1 else fd :: open_results w rest s1
      | (_, _) => [] := by
  rcases h : SyS_open w file s with ⟨o, s1⟩
  cases o <;> simp [open_results, step, K.bind, h]

theorem open_results_other (w : World) (c : Call) (rest : List Call) (s : KState)
    (hc : ∀ file, c ≠ Call.sys_open file) :
    open_results w (c :: rest) s = [] ∨
    open_results w (c :: rest) s = open_results w rest (step w c s).2 := by
  cases c with
  | sys_open file => exact absurd rfl (hc file)
  | sys_close fd =>
    rcases h : step w (Call.sys_close fd) s with ⟨o, s1⟩
    cases o <;> simp [open_results, h]
  | sys_dup2 old_fd new_fd =>
    rcases h : step w (Call.sys_dup2 old_fd new_fd) s with ⟨o, s1⟩
    cases o <;> simp [open_results, h]

theorem open_results_no_open (w : World) (cs : List Call) :
    ∀ s, count_open cs = 0 → open_results w cs s = [] := by
  induction cs with
  | nil => intro s _; rfl
  | cons c rest ih =>
    intro s h
    cases c with
    | sys_open file => simp [count_open] at h
    | sys_close fd =>
      have h0 : count_open rest = 0 := by simpa [count_open] using h
      rcases open_results_other w (Call.sys_close fd) rest s (by intro f; simp) with he | he
      · exact he
      · rw [he]; exact ih _ h0
    | sys_dup2 old_fd new_fd =>
      have h0 : count_open rest = 0 := by simpa [count_open] using h
      rcases open_results_other w (Call.sys_dup2 old_fd new_fd) rest s (by intro f; simp)
        with he | he
      · exact he
      · rw [he]; exact ih _ h0

theorem open_results_increasing (w : World) (cs : List Call) :
    ∀ s, 3 ≤ s.g_fd_nr → s.g_fd_nr + (count_open cs : Int) ≤ 2147483648 →
      List.Pairwise (fun a b => a < b) (open_results w cs s) ∧
      ∀ r ∈ open_results w cs s, s.g_fd_nr ≤ r := by
  induction cs with
  | nil => intro s _ _; exact ⟨List.Pairwise.nil, fun r hr => absurd hr (List.not_mem_nil r)⟩
  | cons c rest ih =>
    intro s h3 hb
    by_cases hc : ∀ file, c ≠ Call.sys_open file
    · have hcount : count_open (c :: rest) = count_open rest := by
        cases c with
        | sys_open file => exact absurd rfl (hc file)
        | sys_close fd => rfl
        | sys_dup2 old_fd new_fd => rfl
      rcases open_results_other w c rest s hc with he | he
      · rw [he]; exact ⟨List.Pairwise.nil, fun r hr => absurd hr (List.not_mem_nil r)⟩
      · rw [he]
        have hg := step_counter w c s hc
        have := ih (step w c s).2 (by rw [hg]; exact h3) (by rw [hg, ← hcount]; exact hb)
        rw [hg] at this
        exact this
    · push_neg at hc
      obtain ⟨file, rfl⟩ := hc
      have hcount : count_open (Call.sys_open file :: rest) = count_open rest + 1 := rfl
      rw [hcount] at hb
      rw [open_results_open]
      have hcases := SyS_open_cases w s file
      rcases hopen : SyS_open w file s with ⟨o, s1⟩
      rw [hopen] at hcases
      simp only at hcases
      rcases hcases with ⟨_, hg, ho | ho⟩ | ⟨p, _, ho, hg, _⟩
      · subst ho
        simp only [if_true]
        have := ih s1 (by rw [hg]; exact h3) (by rw [hg]; omega)
        rw [hg] at this
        exact this
      · subst ho
        exact ⟨List.Pairwise.nil, fun r hr => absurd hr (List.not_mem_nil r)⟩
      · subst ho
        have hne : ¬ s.g_fd_nr = -1 := by omega
        simp only [hne, if_false]
        by_cases hz : count_open rest = 0
        · rw [open_results_no_open w rest s1 hz]
          simp
        · have hs1 : s1.g_fd_nr = s.g_fd_nr + 1 := by
            rw [hg]; exact to_int_small _ (by omega) (by omega)
          obtain ⟨hp, hl⟩ := ih s1 (by omega) (by omega)
          refine ⟨List.pairwise_cons.mpr ⟨fun r hr => ?_, hp⟩, fun r hr => ?_⟩
          · have := hl r hr
            omega
          · rcases List.mem_cons.mp hr with hr | hr
            · omega
            · have := hl r hr
              omega

/-- C2, as amended. For every sequence of `open`, `close` and `dup2` calls that starts in
the state set up by `syscall_init` (counter 3, empty table) and contains at most
2^31 - 3 `open` calls, the descriptors returned by the successful `open` calls form
a strictly increasing sequence of values not below 3, whatever closes happen in
between; so no value is returned twice. -/
theorem open_descriptors_increase (w : World) (s0 : KState) (cs : List Call)
    (h : count_open cs ≤ 2147483645) :
    List.Pairwise (fun a b => a < b) (open_results w cs (init_state s0)) ∧
    ∀ r ∈ open_results w cs (init_state s0), 3 ≤ r :=
  open_results_increasing w cs (init_state s0) (by show (3 : Int) ≤ 3; omega)
    (by show (3 : Int) + (count_open cs : Int) ≤ 2147483648; omega)

/-- Witness of C2 as amended: three opens with a close in between return 3, 4, 5. -/
theorem open_descriptors_increase_witness :
    count_open [Call.sys_open 4096, Call.sys_open 8192, Call.sys_close 3, Call.sys_open 4096]
      ≤ 2147483645 ∧
    open_results demo_world
      [Call.sys_open 4096, Call.sys_open 8192, Call.sys_close 3, Call.sys_open 4096]
      demo_state = [3, 4, 5] ∧
    List.Pairwise (fun a b => a < b) (open_results demo_world
      [Call.sys_open 4096, Call.sys_open 8192, Call.sys_close 3, Call.sys_open 4096]
      (init_state demo_state)) :=
  ⟨by decide, by decide,
   (open_descriptors_increase demo_world demo_state
     [Call.sys_open 4096, Call.sys_open 8192, Call.sys_close 3, Call.sys_open 4096]
     (by decide)).1⟩

theorem step_open_snd (w : World) (file : Nat) (s : KState) :
    (step w (Call.sys_open file) s).2 = (SyS_open w file s).2 := by
  simp only [step, bind_run, K.bind]
  rcases SyS_open w file s with ⟨o, s1⟩
  cases o <;> rfl

theorem step_open_ret (w : World) (file : Nat) (s s1 : KState) (fd : Int)
    (h : SyS_open w file s = (Outcome.ret fd, s1)) :
    step w (Call.sys_open file) s = (Outcome.ret (some fd), s1) := by
  simp [step, K.bind, h]

theorem step_close_ret (w : World) (fd : Int) (s s1 : KState)
    (h : SyS_close w fd s = (Outcome.ret (), s1)) :
    step w (Call.sys_close fd) s = (Outcome.ret none, s1) := by
  simp [step, K.bind, h]

theorem exec_calls_ret (w : World) (c : Call) (rest : List Call) (s s1 : KState)
    (v : Option Int) (h : step w c s = (Outcome.ret v, s1)) :
    exec_calls w (c :: rest) s = exec_calls w rest s1 := by
  simp [exec_calls, h]

theorem open_results_close_ret (w : World) (fd : Int) (rest : List Call) (s s1 : KState)
    (h : SyS_close w fd s = (Outcome.ret (), s1)) :
    open_results w (Call.sys_close fd :: rest) s = open_results w rest s1 := by
  simp [open_results, step_close_ret w fd s s1 h]

/-- Each round of `open_close_rounds` returns to the empty table and advances the
counter by one, modulo 2^32. -/
theorem open_close_rounds_run (w : World) (file : Nat)
    (hv : w.is_user_vaddr file = true) (hf : file ≠ 0)
    (hr : ∀ i, to_reg (w.result i) ≠ 0) (tail : List Call) :
    ∀ (n : Nat) (c : Int) (s : KState), s.fd_list = [] → s.g_fd_nr = to_int c →
      ∃ s1, s1.fd_list = [] ∧ s1.g_fd_nr = to_int (c + n) ∧
        exec_calls w (open_close_rounds file n (to_int c) ++ tail) s = exec_calls w tail s1 ∧
        ∃ pre, open_results w (open_close_rounds file n (to_int c) ++ tail) s
          = pre ++ open_results w tail s1 := by
  intro n
  induction n with
  | zero =>
    intro c s hl hg
    exact ⟨s, hl, by simpa using hg, rfl, [], rfl⟩
  | succ k ih =>
    intro c s hl hg
    obtain ⟨s1, hopen, hg1, hl1⟩ := SyS_open_succeeds w s file hv hf hr
    rw [hl] at hl1
    have hl1b : s1.fd_list = [{ fd := s.g_fd_nr, file_ptr := to_reg (w.result s.log.length) }] :=
      hl1
    have hfound : close_fd_elem s1.fd_list s.g_fd_nr
        = some { fd := s.g_fd_nr, file_ptr := to_reg (w.result s.log.length) } := by
      rw [hl1b]; simp [close_fd_elem]
    have hclose := SyS_close_found w s1 s.g_fd_nr _ hfound
    have hl2 : (closed s1 s.g_fd_nr).fd_list = [] := by
      show list_remove s1.fd_list s.g_fd_nr = []
      rw [hl1b]; simp [list_remove]
    have hg2 : (closed s1 s.g_fd_nr).g_fd_nr = to_int (c + 1) := by
      show s1.g_fd_nr = _
      rw [hg1, hg, to_int_succ]
    obtain ⟨s3, hl3, hg3, he3, pre, hp3⟩ := ih (c + 1) (closed s1 s.g_fd_nr) hl2 hg2
    have hunfold : open_close_rounds file (k + 1) (to_int c) ++ tail
        = Call.sys_open file :: Call.sys_close (to_int c)
            :: (open_close_rounds file k (to_int (c + 1)) ++ tail) := by
      simp [open_close_rounds, to_int_succ]
    rw [hunfold, ← hg]
    refine ⟨s3, hl3, ?_, ?_, ?_⟩
    · rw [hg3]; congr 1; push_cast; ring
    · rw [exec_calls_ret w _ _ s s1 _ (step_open_ret w file s s1 _ hopen),
        exec_calls_ret w _ _ s1 _ _ (step_close_ret w _ s1 _ hclose)]
      exact he3
    · rw [open_results_open, hopen]
      simp only
      rw [open_results_close_ret w _ _ s1 _ hclose, hp3]
      by_cases hm : s.g_fd_nr = -1
      · exact ⟨pre, by simp [hm]⟩
      · exact ⟨s.g_fd_nr :: pre, by simp [hm]⟩

theorem demo_world_result_ne_zero (i : Nat) : to_reg (demo_world.result i) ≠ 0 := by
  show ((549958189056 + 16 * ((i : Int) % 4096)) % 18446744073709551616).toNat ≠ 0
  omega

/-- Counterexample to C2 as stated. After 2^31 - 4 rounds of `open` and `close` from
the initial state the counter is 2^31 - 1; the next `open` returns 2^31 - 1 and the
one after it returns -2^31, so the returned descriptors are not increasing. -/
theorem open_descriptors_wrap :
    ¬ List.Pairwise (fun a b => a < b)
      (open_results demo_world
        (open_close_rounds 4096 2147483644 3 ++ [Call.sys_open 4096, Call.sys_open 4096])
        demo_state) := by
  have h3 : to_int 3 = 3 := by decide
  obtain ⟨s1, _, hg1, _, pre, hp⟩ :=
    open_close_rounds_run demo_world 4096 (by decide) (by decide) demo_world_result_ne_zero
      [Call.sys_open 4096, Call.sys_open 4096] 2147483644 3 demo_state rfl (by decide)
  rw [h3] at hp
  have hc1 : s1.g_fd_nr = 2147483647 := by
    rw [hg1]; decide
  obtain ⟨s2, ho2, hg2, _⟩ :=
    SyS_open_succeeds demo_world s1 4096 (by decide) (by decide) demo_world_result_ne_zero
  obtain ⟨s3, ho3, _, _⟩ :=
    SyS_open_succeeds demo_world s2 4096 (by decide) (by decide) demo_world_result_ne_zero
  have hc2 : s2.g_fd_nr = -2147483648 := by
    rw [hg2, hc1]; decide
  rw [hc1] at ho2
  rw [hc2] at ho3
  have htail : open_results demo_world [Call.sys_open 4096, Call.sys_open 4096] s1
      = [2147483647, -2147483648] := by
    rw [open_results_open, ho2]
    simp only
    rw [open_results_open, ho3]
    simp [open_results]
  rw [hp, htail]
  intro hpw
  have := (List.pairwise_append.mp hpw).2.1
  simp at this

/-! ## The reserved descriptors 0 and 1 -/

theorem to_int_unreserved (j : Nat) (h : j ≤ 4294967292) :
    to_int (3 + j) ≠ 0 ∧ to_int (3 + j) ≠ 1 := by
  unfold to_int
  omega

theorem unreserved_insert (l : List fd_elem) (x : fd_elem)
    (hl : ∀ e ∈ l, e.fd ≠ 0 ∧ e.fd ≠ 1) (hx : x.fd ≠ 0 ∧ x.fd ≠ 1) :
    ∀ e ∈ list_insert_ordered l x fd_cmp, e.fd ≠ 0 ∧ e.fd ≠ 1 := by
  intro e he
  rcases (mem_list_insert_ordered l x e).mp he with he | he
  · rw [he]; exact hx
  · exact hl e he

theorem dup2_targets_unreserved_cons (c : Call) (rest : List Call)
    (h : dup2_targets_unreserved (c :: rest) = true) :
    dup2_targets_unreserved rest = true ∧
    ∀ old_fd new_fd, c = Call.sys_dup2 old_fd new_fd → new_fd ≠ 0 ∧ new_fd ≠ 1 := by
  cases c with
  | sys_open file => exact ⟨h, fun _ _ hc => by cases hc⟩
  | sys_close fd => exact ⟨h, fun _ _ hc => by cases hc⟩
  | sys_dup2 a b =>
    simp only [dup2_targets_unreserved, Bool.and_eq_true, decide_eq_true_eq] at h
    refine ⟨h.2, fun old_fd new_fd hc => ?_⟩
    cases hc
    exact h.1

theorem unreserved_exec_calls (w : World) (cs : List Call) :
    ∀ (s : KState) (j : Nat), dup2_targets_unreserved cs = true →
      s.g_fd_nr = to_int (3 + j) →
      j + count_open cs ≤ 4294967293 → (∀ e ∈ s.fd_list, e.fd ≠ 0 ∧ e.fd ≠ 1) →
      ∀ e ∈ (exec_calls w cs s).fd_list, e.fd ≠ 0 ∧ e.fd ≠ 1 := by
  induction cs with
  | nil => intro s j _ _ _ hl; exact hl
  | cons c rest ih =>
    intro s j hd hg hb hl
    obtain ⟨hd2, hd1⟩ := dup2_targets_unreserved_cons c rest hd
    -- the state after the first call satisfies the invariant again
    have hstep : ∃ j2 : Nat, (step w c s).2.g_fd_nr = to_int (3 + j2) ∧
        j2 + count_open rest ≤ 4294967293 ∧
        ∀ e ∈ (step w c s).2.fd_list, e.fd ≠ 0 ∧ e.fd ≠ 1 := by
      by_cases hc : ∀ file, c ≠ Call.sys_open file
      · have hcount : count_open (c :: rest) = count_open rest := by
          cases c with
          | sys_open file => exact absurd rfl (hc file)
          | sys_close fd => rfl
          | sys_dup2 old_fd new_fd => rfl
        refine ⟨j, by rw [step_counter w c s hc]; exact hg, by rw [← hcount]; exact hb, ?_⟩
        obtain ⟨l, hsub, hr⟩ := step_table w c s
        have hl2 : ∀ e ∈ l, e.fd ≠ 0 ∧ e.fd ≠ 1 := fun e he => hl e (hsub.subset he)
        rcases hr with hr | ⟨x, hr, hx⟩
        · rw [hr]; exact hl2
        · rw [hr]
          apply unreserved_insert l x hl2
          rcases hx with ⟨file, hfile, _⟩ | ⟨old_fd, hdup⟩
          · exact absurd hfile (hc file)
          · exact hd1 old_fd x.fd hdup
      · push_neg at hc
        obtain ⟨file, rfl⟩ := hc
        have hcount : count_open (Call.sys_open file :: rest) = count_open rest + 1 := rfl
        rw [hcount] at hb
        rw [step_open_snd]
        rcases SyS_open_cases w s file with ⟨h1, h2, _⟩ | ⟨p, _, _, h2, h1⟩
        · exact ⟨j, by rw [h2]; exact hg, by omega, by rw [h1]; exact hl⟩
        · refine ⟨j + 1, ?_, by omega, ?_⟩
          · rw [h2, hg, to_int_succ]; congr 1
          · rw [h1]
            apply unreserved_insert _ _ hl
            show s.g_fd_nr ≠ 0 ∧ s.g_fd_nr ≠ 1
            rw [hg]
            exact to_int_unreserved j (by omega)
    obtain ⟨j2, hg2, hb2, hl2⟩ := hstep
    rcases exec_calls_cons w c rest s with he | he
    · rw [he]; exact hl2
    · rw [he]; exact ih _ j2 hd2 hg2 hb2 hl2

/-- C5, as amended. In every state reached from the initial state by a sequence of
`open`, `close` and `dup2` calls with arbitrary integer arguments in which no `dup2`
names 0 or 1 as its new descriptor, and which contains at most 2^32 - 3 `open`
calls, the descriptor table contains no entry whose descriptor is 0 or 1. -/
theorem no_reserved_entries (w : World) (s0 : KState) (cs : List Call)
    (hd : dup2_targets_unreserved cs = true) (hb : count_open cs ≤ 4294967293) :
    ∀ e ∈ (exec_calls w cs (init_state s0)).fd_list, e.fd ≠ 0 ∧ e.fd ≠ 1 :=
  unreserved_exec_calls w cs (init_state s0) 0 hd
    (by show (3 : Int) = to_int (3 + ((0 : Nat) : Int)); decide) (by omega)
    (fun e he => absurd he (List.not_mem_nil e))

/-- Witness of C5 as amended: a sequence with a `dup2` onto descriptor 7 leaves
descriptors 3 and 7 in the table, neither of them reserved. -/
theorem no_reserved_entries_witness :
    dup2_targets_unreserved [Call.sys_open 4096, Call.sys_dup2 3 7] = true ∧
    count_open [Call.sys_open 4096, Call.sys_dup2 3 7] ≤ 4294967293 ∧
    fds (exec_calls demo_world [Call.sys_open 4096, Call.sys_dup2 3 7] demo_state).fd_list
      = [3, 7] ∧
    ∀ e ∈ (exec_calls demo_world [Call.sys_open 4096, Call.sys_dup2 3 7]
      (init_state demo_state)).fd_list, e.fd ≠ 0 ∧ e.fd ≠ 1 :=
  ⟨by decide, by decide, by decide,
   no_reserved_entries demo_world demo_state [Call.sys_open 4096, Call.sys_dup2 3 7]
     (by decide) (by decide)⟩

/-- Counterexample to C5 as stated. From the initial state, `open` followed by
`dup2 (3, 0)` leaves an entry with descriptor 0 in the table, and `open` followed by
`dup2 (3, 1)` leaves an entry with descriptor 1. -/
theorem dup2_binds_reserved_descriptor :
    fds (exec_calls demo_world [Call.sys_open 4096, Call.sys_dup2 3 0] demo_state).fd_list
      = [0, 3] ∧
    fds (exec_calls demo_world [Call.sys_open 4096, Call.sys_dup2 3 1] demo_state).fd_list
      = [1, 3] := by
  decide

/-- After 2^32 - 3 rounds of `open` and `close` the counter has wrapped to 0, and the
next `open` puts an entry with descriptor 0 in the table. -/
theorem open_binds_reserved_after_wrap :
    fds (exec_calls demo_world (open_close_rounds 4096 4294967293 3 ++ [Call.sys_open 4096])
      demo_state).fd_list = [0] := by
  have h3 : to_int 3 = 3 := by decide
  obtain ⟨s1, hl1, hg1, he, _⟩ :=
    open_close_rounds_run demo_world 4096 (by decide) (by decide) demo_world_result_ne_zero
      [Call.sys_open 4096] 4294967293 3 demo_state rfl (by decide)
  rw [h3] at he
  have hc1 : s1.g_fd_nr = 0 := by
    rw [hg1]; decide
  obtain ⟨s2, ho2, _, hl2⟩ :=
    SyS_open_succeeds demo_world s1 4096 (by decide) (by decide) demo_world_result_ne_zero
  rw [he, exec_calls_ret demo_world _ _ s1 s2 _ (step_open_ret demo_world 4096 s1 s2 _ ho2)]
  show fds s2.fd_list = [0]
  rw [hl2, hl1, hc1]
  rfl

/-! ## Closing in a table without duplicates -/

theorem close_fd_elem_absent (l : List fd_elem) (fd : Int) (h : fd ∉ fds l) :
    close_fd_elem l fd = none := by
  induction l with
  | nil => rfl
  | cons x xs ih =>
    have hx : ¬ fd = x.fd := fun e => h (by simp [fds, e])
    have hxs : fd ∉ fds xs := fun e => h (by simp only [fds, List.map_cons]; exact List.mem_cons_of_mem _ e)
    simp [close_fd_elem, hx, ih hxs]

theorem close_fd_elem_list_remove (l : List fd_elem) (fd : Int)
    (hu : List.Nodup (fds l)) : close_fd_elem (list_remove l fd) fd = none := by
  induction l with
  | nil => rfl
  | cons x xs ih =>
    have hu2 : x.fd ∉ fds xs ∧ List.Nodup (fds xs) := by
      simpa [fds] using hu
    by_cases hx : fd = x.fd
    · simp only [list_remove, hx, if_true]
      exact close_fd_elem_absent xs x.fd hu2.1
    · simp only [list_remove, hx, if_false, close_fd_elem]
      exact ih hu2.2

/-- In a table whose descriptors are pairwise distinct, for every descriptor that
resolves, `close` returns, `fd_to_file` then reports not-found, and a second `close`
terminates the caller with exit status -1. -/
theorem close_then_lookup_of_nodup (w : World) (s : KState) (fd : Int)
    (hu : List.Nodup (fds s.fd_list)) (hr : fd_to_file s.fd_list fd ≠ 0) :
    SyS_close w fd s = (Outcome.ret (), closed s fd) ∧
    fd_to_file (closed s fd).fd_list fd = 0 ∧
    SyS_close w fd (closed s fd) = (Outcome.exited, killed (closed s fd)) ∧
    (killed (closed s fd)).exit_status = -1 :=
  ⟨SyS_close_resolves w s fd hr,
   close_fd_elem_none _ fd (close_fd_elem_list_remove s.fd_list fd hu),
   SyS_close_none w (closed s fd) fd (close_fd_elem_list_remove s.fd_list fd hu), rfl⟩

/-! ## Console descriptors -/

/-- C11, as amended. For every valid buffer pointer and every size `N` with
`0 ≤ N < 2^31`, `write (1, buf, N)` writes the buffer to the console under the lock
and returns `N`, which is also the value that the `int` result leaves in a register. -/
theorem write_console_returns_size (w : World) (s : KState) (buffer size : Nat)
    (hv : w.is_user_vaddr buffer = true) (hs : size < 2147483648) :
    SyS_write w 1 buffer size s =
      (Outcome.ret (size : Int),
        { s with syscall_lock := false,
                 log := s.log ++ [Effect.lock_acquire, Effect.putbuf buffer size,
                                  Effect.lock_release] }) ∧
    to_reg (size : Int) = size := by
  have h1 : to_int (size : Int) = size := to_int_small _ (by omega) (by omega)
  refine ⟨?_, ?_⟩
  · simp [SyS_write, K.bind, hv, h1]
  · unfold to_reg
    omega

/-- Witness of C11 as amended: writing 5 bytes to descriptor 1 returns 5. -/
theorem write_console_returns_size_witness :
    demo_world.is_user_vaddr 4096 = true ∧ (5 : Nat) < 2147483648 ∧
    (SyS_write demo_world 1 4096 5 demo_state).1 = Outcome.ret 5 :=
  ⟨by decide, by decide,
   congrArg Prod.fst
     (write_console_returns_size demo_world demo_state 4096 5 (by decide) (by decide)).1⟩

/-- Counterexample to C11 as stated. With a valid buffer, `write (1, buf, 2^31)` returns
`-2^31` and `write (1, buf, 2^32 - 1)` returns -1: the unsigned size is returned
through the `int` result of `SyS_write`. -/
theorem write_console_size_truncated :
    demo_world.is_user_vaddr 4096 = true ∧
    (SyS_write demo_world 1 4096 2147483648 demo_state).1 = Outcome.ret (-2147483648) ∧
    (SyS_write demo_world 1 4096 4294967295 demo_state).1 = Outcome.ret (-1) := by
  decide

/-- C12, as amended. For any buffer and any size, `read (1, buf, size)` terminates the
caller with exit status -1. For any size, `write (0, buf, size)` returns -1 with the
state unchanged when the buffer passes address validation, and terminates the caller
with exit status -1 when it does not. In no case is a console or file-system
primitive called: the log is extended by nothing, or by the exit message and
`thread_exit` only. -/
theorem wrong_console_descriptor (w : World) (s : KState) (buffer size : Nat) :
    SyS_read w 1 buffer size s = (Outcome.exited, killed s) ∧
    SyS_write w 0 buffer size s
      = (if w.is_user_vaddr buffer = true then (Outcome.ret (-1), s)
         else (Outcome.exited, killed s)) ∧
    (killed s).exit_status = -1 ∧
    (killed s).log = s.log ++ [Effect.printf_exit (-1), Effect.thread_exit] := by
  refine ⟨?_, ?_, rfl, rfl⟩
  · by_cases hv : w.is_user_vaddr buffer = true
    · simp [SyS_read, K.bind, hv]
    · simp [SyS_read, K.bind, hv]
  · by_cases hv : w.is_user_vaddr buffer = true
    · simp [SyS_write, K.bind, hv]
    · simp [SyS_write, K.bind, hv]

/-- Counterexample to C12 as stated. For the kernel address `0x800C000000` as buffer,
`write (0, buf, 10)` does not return -1: the caller is terminated. -/
theorem write_stdin_bad_buffer_terminates :
    demo_world.is_user_vaddr 549957140480 = false ∧
    SyS_write demo_world 0 549957140480 10 demo_state
      = (Outcome.exited, killed demo_state) ∧
    (SyS_write demo_world 0 549957140480 10 demo_state).1 ≠ Outcome.ret (-1) := by
  decide

/-- C13, at the failing input. With a valid buffer, `read (0, buf, 0)` calls
`input_getc` once although the size is 0; and `read (0, buf, 5)` also calls it once,
and its result is not the number of characters taken but whatever the return
register holds, the function ending without a `return`. -/
theorem read_console_ignores_size :
    demo_world.is_user_vaddr 4096 = true ∧
    (SyS_read demo_world 0 4096 0 demo_state).2.log
      = [Effect.lock_acquire, Effect.input_getc, Effect.lock_release] ∧
    count_input_getc (SyS_read demo_world 0 4096 0 demo_state).2.log = 1 ∧
    count_input_getc (SyS_read demo_world 0 4096 5 demo_state).2.log = 1 ∧
    (SyS_read demo_world 0 4096 5 demo_state).1
      = Outcome.ret (demo_world.no_return_value 3) ∧
    (SyS_read demo_world 0 4096 5 demo_state).1 ≠ Outcome.ret 1 := by
  decide

/-- For every valid buffer and every size, `read (0, buf, size)` calls `input_getc`
exactly once under the lock and returns the value left in the return register. -/
theorem read_console_run (w : World) (s : KState) (buffer size : Nat)
    (hv : w.is_user_vaddr buffer = true) :
    SyS_read w 0 buffer size s =
      (Outcome.ret (w.no_return_value (s.log.length + 3)),
        { s with syscall_lock := false,
                 log := s.log ++ [Effect.lock_acquire, Effect.input_getc,
                                  Effect.lock_release] }) := by
  simp [SyS_read, K.bind, hv]

/-! ## Error paths of `open`, `create`, `read` and `seek` -/

/-- C14, at the failing input. When `filesys_open` succeeds and `malloc` returns
`NULL`, `open` returns -1 and leaves the table and the counter unchanged, but
`file_close` is never called: the log holds the open and the allocation only, so the
handle just opened is not released. -/
theorem open_leaks_handle_without_memory :
    no_memory_world.is_user_vaddr 4096 = true ∧
    to_reg (no_memory_world.result 0) ≠ 0 ∧ to_reg (no_memory_world.result 1) = 0 ∧
    SyS_open no_memory_world 4096 demo_state =
      (Outcome.ret (-1),
        { demo_state with log := [Effect.filesys_open 4096, Effect.malloc] }) ∧
    count_file_close (SyS_open no_memory_world 4096 demo_state).2.log = 0 := by
  decide

/-- C15, as amended. For every initial size, `create` called with a null name
terminates the caller with exit status -1; `filesys_create` is not called and the
lock is not acquired. -/
theorem create_null_terminates (w : World) (s : KState) (initial_size : Nat) :
    SyS_create w 0 initial_size s = (Outcome.exited, killed s) ∧
    (killed s).exit_status = -1 ∧
    (killed s).log = s.log ++ [Effect.printf_exit (-1), Effect.thread_exit] := by
  refine ⟨?_, rfl, rfl⟩
  by_cases hv : w.is_user_vaddr 0 = true
  · simp [SyS_create, K.bind, hv]
  · simp [SyS_create, K.bind, hv]

/-- Counterexample to C15 as stated. In the concrete environment the null pointer
passes address validation, and `create (NULL, 0)` does not return false: the caller
is terminated. -/
theorem create_null_does_not_return :
    demo_world.is_user_vaddr 0 = true ∧
    SyS_create demo_world 0 0 demo_state = (Outcome.exited, killed demo_state) ∧
    (SyS_create demo_world 0 0 demo_state).1 ≠ Outcome.ret false := by
  decide

/-- C16. For every valid buffer, every size and every descriptor other than 0 and 1 that
`fd_to_file` does not resolve, `read (fd, buf, size)` terminates the caller with exit
status -1; the log is extended by the exit message and `thread_exit` only, so
`file_read` is not called and the lock is not acquired. -/
theorem read_unknown_descriptor_terminates (w : World) (s : KState) (fd : Int)
    (buffer size : Nat) (hv : w.is_user_vaddr buffer = true) (h0 : fd ≠ 0) (h1 : fd ≠ 1)
    (hr : fd_to_file s.fd_list fd = 0) :
    SyS_read w fd buffer size s = (Outcome.exited, killed s) ∧
    (killed s).exit_status = -1 ∧ (killed s).syscall_lock = s.syscall_lock ∧
    (killed s).log = s.log ++ [Effect.printf_exit (-1), Effect.thread_exit] := by
  refine ⟨?_, rfl, rfl, rfl⟩
  simp [SyS_read, K.bind, hv, h0, h1, hr]

/-- Witness of C16: after `open` and `close (3)`, descriptor 3 does not resolve, and
`read (3, buf, 2)` terminates the caller with status -1. -/
theorem read_unknown_descriptor_terminates_witness :
    demo_world.is_user_vaddr 4096 = true ∧
    fd_to_file (exec_calls demo_world [Call.sys_open 4096, Call.sys_close 3]
      demo_state).fd_list 3 = 0 ∧
    SyS_read demo_world 3 4096 2
      (exec_calls demo_world [Call.sys_open 4096, Call.sys_close 3] demo_state)
      = (Outcome.exited,
          killed (exec_calls demo_world [Call.sys_open 4096, Call.sys_close 3]
            demo_state)) :=
  ⟨by decide, by decide,
   (read_unknown_descriptor_terminates demo_world _ 3 4096 2 (by decide) (by decide)
     (by decide) (by decide)).1⟩

/-- C18, at the failing input. In the initial state descriptor 7 does not resolve,
and `seek (7, 0)` calls `file_seek` with the null handle, which is a kernel fault. -/
theorem seek_unknown_descriptor_calls_file_seek :
    fd_to_file demo_state.fd_list 7 = 0 ∧
    SyS_seek 7 0 demo_state
      = (Outcome.fault, { demo_state with log := [Effect.file_seek 0 0] }) ∧
    (SyS_seek 7 0 demo_state).2 ≠ demo_state := by
  decide

/-! ## The frame of `close` -/

theorem close_splits_table (l : List fd_elem) (fd : Int) (h : fd ∈ fds l) :
    ∃ pre e post, l = pre ++ e :: post ∧ e.fd = fd ∧ (∀ x ∈ pre, x.fd ≠ fd) ∧
      close_fd_elem l fd = some e ∧ list_remove l fd = pre ++ post := by
  induction l with
  | nil => simp [fds] at h
  | cons x xs ih =>
    by_cases hx : fd = x.fd
    · refine ⟨[], x, xs, rfl, hx.symm, ?_, ?_, ?_⟩
      · intro y hy; cases hy
      · simp [close_fd_elem, hx]
      · simp [list_remove, hx]
    · have hmem : fd ∈ fds xs := by
        simp only [fds, List.map_cons, List.mem_cons] at h
        rcases h with h | h
        · exact absurd h hx
        · exact h
      obtain ⟨pre, e, post, hl, he, hpre, hc, hrm⟩ := ih hmem
      refine ⟨x :: pre, e, post, by rw [hl]; rfl, he, ?_, ?_, ?_⟩
      · intro y hy
        rcases List.mem_cons.mp hy with hy | hy
        · rw [hy]; exact fun e2 => hx e2.symm
        · exact hpre y hy
      · simp [close_fd_elem, hx, hc]
      · simp [list_remove, hx, hrm]

/-- C19. For every table and every descriptor that has an entry in it, `close (fd)`
returns and removes exactly one entry, the first whose descriptor equals `fd`: the
table is `pre ++ e :: post` with no entry of `fd` in `pre`, and becomes `pre ++ post`,
so every other entry and their relative order are unchanged. `file_close` is called
exactly once, on the handle of that entry, under the lock; the counter, the status
cell and the saved frame are unchanged. -/
theorem close_removes_first_entry (w : World) (s : KState) (fd : Int)
    (h : fd ∈ fds s.fd_list) :
    ∃ pre e post, s.fd_list = pre ++ e :: post ∧ e.fd = fd ∧ (∀ x ∈ pre, x.fd ≠ fd) ∧
      SyS_close w fd s =
        (Outcome.ret (),
          { s with fd_list := pre ++ post, syscall_lock := false,
                   log := s.log ++ [Effect.lock_acquire, Effect.file_close e.file_ptr,
                                    Effect.lock_release, Effect.free] }) ∧
      count_file_close [Effect.lock_acquire, Effect.file_close e.file_ptr,
                        Effect.lock_release, Effect.free] = 1 := by
  obtain ⟨pre, e, post, hl, he, hpre, hc, hrm⟩ := close_splits_table s.fd_list fd h
  refine ⟨pre, e, post, hl, he, hpre, ?_, rfl⟩
  rw [SyS_close_some w s fd e hc, hrm]

/-- Witness of C19: with descriptors 3, 4 and 5 open, `close (4)` leaves 3 and 5 in the
table, in that order, and the counter at 6. -/
theorem close_removes_first_entry_witness :
    (4 : Int) ∈ fds (exec_calls demo_world
      [Call.sys_open 4096, Call.sys_open 4096, Call.sys_open 4096] demo_state).fd_list ∧
    fds (SyS_close demo_world 4 (exec_calls demo_world
      [Call.sys_open 4096, Call.sys_open 4096, Call.sys_open 4096] demo_state)).2.fd_list
      = [3, 5] ∧
    (SyS_close demo_world 4 (exec_calls demo_world
      [Call.sys_open 4096, Call.sys_open 4096, Call.sys_open 4096] demo_state)).2.g_fd_nr
      = 6 ∧
    ∃ pre e post,
      (exec_calls demo_world [Call.sys_open 4096, Call.sys_open 4096, Call.sys_open 4096]
        demo_state).fd_list = pre ++ e :: post ∧ e.fd = 4 ∧ (∀ x ∈ pre, x.fd ≠ 4) ∧
      SyS_close demo_world 4 (exec_calls demo_world
        [Call.sys_open 4096, Call.sys_open 4096, Call.sys_open 4096] demo_state) =
        (Outcome.ret (),
          { exec_calls demo_world
              [Call.sys_open 4096, Call.sys_open 4096, Call.sys_open 4096] demo_state with
            fd_list := pre ++ post, syscall_lock := false,
            log := (exec_calls demo_world
              [Call.sys_open 4096, Call.sys_open 4096, Call.sys_open 4096] demo_state).log
              ++ [Effect.lock_acquire, Effect.file_close e.file_ptr,
                  Effect.lock_release, Effect.free] }) ∧
      count_file_close [Effect.lock_acquire, Effect.file_close e.file_ptr,
                        Effect.lock_release, Effect.free] = 1 :=
  ⟨by decide, by decide, by decide,
   close_removes_first_entry demo_world _ 4 (by decide)⟩

/-! ## Fixed point -/

theorem to_int64_small (x : Int) (h1 : -9223372036854775808 ≤ x)
    (h2 : x < 9223372036854775808) : to_int64 x = x := by
  unfold to_int64
  omega

theorem fp_f_eq : fp_f = 16384 := by decide

theorem FP_small (n : Int) (h1 : -131072 ≤ n) (h2 : n < 131072) : FP n = n * 16384 := by
  unfold FP shl
  exact to_int_small _ (by omega) (by omega)

theorem int32_product_bound (a y : Int) (ha1 : -2147483648 ≤ a) (ha2 : a < 2147483648)
    (hy1 : -2147483648 ≤ y) (hy2 : y < 2147483648) :
    -9223372036854775808 ≤ a * y ∧ a * y < 9223372036854775808 := by
  constructor
  · nlinarith [mul_nonneg (sub_nonneg.mpr ha1) (sub_nonneg.mpr (le_of_lt hy2)),
      mul_nonneg (sub_nonneg.mpr (le_of_lt ha2)) (sub_nonneg.mpr hy1)]
  · nlinarith [mul_nonneg (sub_nonneg.mpr ha1) (sub_nonneg.mpr hy1),
      mul_nonneg (sub_nonneg.mpr (le_of_lt ha2)) (sub_nonneg.mpr (le_of_lt hy2))]

/-- C20. For every integer `n` with `-2^17 ≤ n < 2^17`, `FP2INT (FP (n)) = n`; and for every
such `n` and every `int32` value `y`, `MULL (FP (n), y) = n * y` exactly. -/
theorem fixed_point_round_trip (n y : Int) (hn1 : -131072 ≤ n) (hn2 : n < 131072)
    (hy1 : -2147483648 ≤ y) (hy2 : y < 2147483648) :
    FP2INT (FP n) = n ∧ MULL (FP n) y = n * y := by
  have hfp := FP_small n hn1 hn2
  constructor
  · rw [hfp]
    unfold FP2INT
    rw [Int.shiftRight_eq_div_pow]
    exact Int.mul_ediv_cancel n (by decide)
  · unfold MULL
    rw [hfp, fp_f_eq]
    have hb := int32_product_bound (n * 16384) y (by omega) (by omega) hy1 hy2
    have hb2 := int32_product_bound n y (by omega) (by omega) hy1 hy2
    rw [to_int64_small (n * 16384) (by omega) (by omega),
      to_int64_small (n * 16384 * y) hb.1 hb.2]
    have hre : n * 16384 * y = n * y * 16384 := by ring
    rw [hre, Int.mul_tdiv_cancel (n * y) (by decide)]
    exact to_int64_small _ hb2.1 hb2.2

/-- Witness of C20: `FP2INT (FP (-3)) = -3` and `MULL (FP (-3), 5) = -15`. -/
theorem fixed_point_round_trip_witness :
    FP2INT (FP (-3)) = -3 ∧ MULL (FP (-3)) 5 = -3 * 5 :=
  fixed_point_round_trip (-3) 5 (by decide) (by decide) (by decide) (by decide)

/-! ## The lock on every exit path -/

theorem SyS_exit_status_run {α : Type} (w : World) (status : Int) (s : KState) :
    SyS_exit w status s = ((Outcome.exited : Outcome α),
      { s with exit_status := status,
               log := s.log ++ [Effect.printf_exit status, Effect.thread_exit] }) := by
  simp [SyS_exit, K.bind]

theorem lock_respected_create (w : World) (s : KState) (file initial_size : Nat)
    (h : s.syscall_lock = false) :
    lock_respected s (SyS_create w file initial_size s).2 = true := by
  by_cases hv : w.is_user_vaddr file = true
  · by_cases hf : file = 0
    · subst hf
      simp [SyS_create, K.bind, hv, lock_respected, lock_discipline, lock_phase_run,
        lock_phase_step, killed, h]
    · simp [SyS_create, K.bind, hv, hf, lock_respected, lock_discipline, lock_phase_run,
        lock_phase_step, killed, h]
  · simp [SyS_create, K.bind, hv, lock_respected, lock_discipline, lock_phase_run,
        lock_phase_step, killed, h]

theorem lock_respected_halt (s : KState) (h : s.syscall_lock = false) :
    lock_respected s (SyS_halt s).2 = true := by
  simp [SyS_halt, power_off, lock_respected, lock_discipline, lock_phase_run,
    lock_phase_step, h]

theorem lock_respected_exit (w : World) (s : KState) (status : Int)
    (h : s.syscall_lock = false) :
    lock_respected s (SyS_exit w status s : Outcome Unit × KState).2 = true := by
  simp [SyS_exit_status_run, lock_respected, lock_discipline, lock_phase_run,
    lock_phase_step, h]

theorem lock_respected_fork (w : World) (s : KState) (thread_name : Nat)
    (h : s.syscall_lock = false) :
    lock_respected s (SyS_fork w thread_name s).2 = true := by
  by_cases hv : w.is_user_vaddr thread_name = true
  · by_cases h1 : to_int (w.result s.log.length) = w.TID_ERROR
    · simp [SyS_fork, K.bind, hv, h1, lock_respected, lock_discipline, lock_phase_run,
        lock_phase_step, h]
    · cases hfind : List.find? (fun tid => decide (tid = to_int (w.result s.log.length)))
          (w.child_list (s.log.length + 1)) with
      | none =>
        simp [SyS_fork, K.bind, hv, h1, hfind, lock_respected, lock_discipline,
          lock_phase_run, lock_phase_step, h]
      | some tid =>
        by_cases h2 : w.child_exit_status (s.log.length + 1 + 1) tid = w.TID_ERROR <;>
          simp [SyS_fork, K.bind, hv, h1, hfind, h2, lock_respected, lock_discipline,
            lock_phase_run, lock_phase_step, h]
  · simp [SyS_fork, K.bind, hv, lock_respected, lock_discipline, lock_phase_run,
      lock_phase_step, killed, h]

theorem lock_respected_exec (w : World) (s : KState) (cmd_line : Nat)
    (h : s.syscall_lock = false) :
    lock_respected s (SyS_exec w cmd_line s).2 = true := by
  by_cases hv : w.is_user_vaddr cmd_line = true
  · by_cases h1 : to_reg (w.result s.log.length) = 0
    · simp [SyS_exec, K.bind, hv, h1, lock_respected, lock_discipline, lock_phase_run,
        lock_phase_step, h]
    · by_cases h2 : to_int (w.result (s.log.length + 1 + 1)) = -1
      · simp [SyS_exec, K.bind, hv, h1, h2, lock_respected, lock_discipline,
          lock_phase_run, lock_phase_step, killed, h]
      · simp [SyS_exec, K.bind, hv, h1, h2, lock_respected, lock_discipline,
          lock_phase_run, lock_phase_step, killed, h]
  · simp [SyS_exec, K.bind, hv, lock_respected, lock_discipline, lock_phase_run,
      lock_phase_step, killed, h]

theorem lock_respected_wait (w : World) (s : KState) (pid : Int)
    (h : s.syscall_lock = false) :
    lock_respected s (SyS_wait w pid s).2 = true := by
  simp [SyS_wait, lock_respected, lock_discipline, lock_phase_run, lock_phase_step, h]

theorem lock_respected_remove (w : World) (s : KState) (file : Nat)
    (h : s.syscall_lock = false) :
    lock_respected s (SyS_remove w file s).2 = true := by
  by_cases hv : w.is_user_vaddr file = true
  · by_cases hf : file = 0
    · subst hf
      simp [SyS_remove, K.bind, hv, lock_respected, lock_discipline, lock_phase_run,
        lock_phase_step, killed, h]
    · simp [SyS_remove, K.bind, hv, hf, lock_respected, lock_discipline, lock_phase_run,
        lock_phase_step, killed, h]
  · simp [SyS_remove, K.bind, hv, lock_respected, lock_discipline, lock_phase_run,
        lock_phase_step, killed, h]

theorem lock_respected_open (w : World) (s : KState) (file : Nat)
    (h : s.syscall_lock = false) :
    lock_respected s (SyS_open w file s).2 = true := by
  by_cases hv : w.is_user_vaddr file = true
  · by_cases hf : file = 0
    · subst hf
      simp [SyS_open, K.bind, hv, lock_respected, lock_discipline, lock_phase_run,
        lock_phase_step, h]
    · by_cases ho : to_reg (w.result s.log.length) = 0
      · simp [SyS_open, K.bind, hv, hf, ho, lock_respected, lock_discipline,
          lock_phase_run, lock_phase_step, h]
      · by_cases hm : to_reg (w.result (s.log.length + 1)) = 0
        · simp [SyS_open, K.bind, hv, hf, ho, hm, lock_respected, lock_discipline,
            lock_phase_run, lock_phase_step, h]
        · by_cases hn : w.strcmp_name (s.log.length + 1 + 1) file = 0 <;>
            simp [SyS_open, K.bind, hv, hf, ho, hm, hn, lock_respected, lock_discipline,
              lock_phase_run, lock_phase_step, h]
  · simp [SyS_open, K.bind, hv, lock_respected, lock_discipline, lock_phase_run,
      lock_phase_step, killed, h]

theorem lock_respected_filesize (w : World) (s : KState) (fd : Int)
    (h : s.syscall_lock = false) :
    lock_respected s (SyS_filesize w fd s).2 = true := by
  by_cases hr : fd_to_file s.fd_list fd = 0 <;>
    simp [SyS_filesize, K.bind, hr, lock_respected, lock_discipline, lock_phase_run,
      lock_phase_step, h]

theorem lock_respected_read (w : World) (s : KState) (fd : Int) (buffer size : Nat)
    (h : s.syscall_lock = false) :
    lock_respected s (SyS_read w fd buffer size s).2 = true := by
  by_cases hv : w.is_user_vaddr buffer = true
  · by_cases h0 : fd = 0
    · subst h0
      simp [SyS_read, K.bind, hv, lock_respected, lock_discipline, lock_phase_run,
        lock_phase_step, h]
    · by_cases h1 : fd = 1
      · subst h1
        simp [SyS_read, K.bind, hv, lock_respected, lock_discipline, lock_phase_run,
          lock_phase_step, killed, h]
      · by_cases hr : fd_to_file s.fd_list fd = 0 <;>
          simp [SyS_read, K.bind, hv, h0, h1, hr, lock_respected, lock_discipline,
            lock_phase_run, lock_phase_step, killed, h]
  · simp [SyS_read, K.bind, hv, lock_respected, lock_discipline, lock_phase_run,
      lock_phase_step, killed, h]

theorem lock_respected_write (w : World) (s : KState) (fd : Int) (buffer size : Nat)
    (h : s.syscall_lock = false) :
    lock_respected s (SyS_write w fd buffer size s).2 = true := by
  by_cases hv : w.is_user_vaddr buffer = true
  · by_cases h1 : fd = 1
    · subst h1
      simp [SyS_write, K.bind, hv, lock_respected, lock_discipline, lock_phase_run,
        lock_phase_step, h]
    · by_cases h0 : fd = 0
      · subst h0
        simp [SyS_write, K.bind, hv, lock_respected, lock_discipline, lock_phase_run,
          lock_phase_step, h]
      · by_cases hr : fd_to_file s.fd_list fd = 0 <;>
          simp [SyS_write, K.bind, hv, h0, h1, hr, lock_respected, lock_discipline,
            lock_phase_run, lock_phase_step, h]
  · simp [SyS_write, K.bind, hv, lock_respected, lock_discipline, lock_phase_run,
      lock_phase_step, killed, h]

theorem lock_respected_close (w : World) (s : KState) (fd : Int)
    (h : s.syscall_lock = false) :
    lock_respected s (SyS_close w fd s).2 = true := by
  cases hc : close_fd_elem s.fd_list fd with
  | none =>
    rw [SyS_close_none w s fd hc]
    simp [lock_respected, lock_discipline, lock_phase_run, lock_phase_step, killed, h]
  | some e =>
    rw [SyS_close_some w s fd e hc]
    simp [lock_respected, lock_discipline, lock_phase_run, lock_phase_step]

theorem lock_respected_seek (s : KState) (fd : Int) (position : Nat)
    (h : s.syscall_lock = false) :
    lock_respected s (SyS_seek fd position s).2 = true := by
  by_cases hr : fd_to_file s.fd_list fd = 0 <;>
    simp [SyS_seek, file_seek, K.bind, hr, lock_respected, lock_discipline,
      lock_phase_run, lock_phase_step, h]

theorem lock_respected_tell (w : World) (s : KState) (fd : Int)
    (h : s.syscall_lock = false) :
    lock_respected s (SyS_tell w fd s).2 = true := by
  by_cases hr : fd_to_file s.fd_list fd = 0 <;>
    simp [SyS_tell, file_tell, K.bind, hr, lock_respected, lock_discipline,
      lock_phase_run, lock_phase_step, h]

theorem lock_respected_dup2 (w : World) (s : KState) (old_fd new_fd : Int)
    (h : s.syscall_lock = false) :
    lock_respected s (SyS_dup2 w old_fd new_fd s).2 = true := by
  by_cases h1 : fd_to_file s.fd_list old_fd = 0
  · rw [SyS_dup2_unresolved w s old_fd new_fd h1]
    simp [lock_respected, lock_discipline, lock_phase_run, h]
  by_cases h2 : new_fd = old_fd
  · subst h2
    rw [SyS_dup2_same w s new_fd h1]
    simp [lock_respected, lock_discipline, lock_phase_run, h]
  by_cases h3 : fd_to_file s.fd_list new_fd = 0
  · rw [SyS_dup2_fresh w s old_fd new_fd h1 h2 h3]
    split <;> simp [lock_respected, lock_discipline, lock_phase_run, lock_phase_step, h]
  · rw [SyS_dup2_rebind w s old_fd new_fd h1 h2 h3]
    split <;>
      simp [closed, lock_respected, lock_discipline, lock_phase_run, lock_phase_step]

theorem bind_pure_snd {α β : Type} (m : K α) (g : α → β) (s : KState) :
    ((m >>= fun r => pure (g r)) s).2 = (m s).2 := by
  simp only [bind_run, K.bind]
  rcases m s with ⟨o, s1⟩
  cases o <;> rfl

theorem lock_respected_dispatch (w : World) (s : KState) (f : intr_frame)
    (h : s.syscall_lock = false) :
    lock_respected s (syscall_handler w f s).2 = true := by
  have hs : ({ s with parent_if := f } : KState).syscall_lock = false := h
  unfold syscall_handler
  rw [bind_run, K.bind, modify_run]
  dsimp only
  by_cases c0 : f.rax = w.nr.SYS_HALT
  · rw [if_pos c0]
    rw [bind_pure_snd]
    exact lock_respected_halt _ hs
  rw [if_neg c0]
  by_cases c1 : f.rax = w.nr.SYS_EXIT
  · rw [if_pos c1]
    exact lock_respected_exit w _ _ hs
  rw [if_neg c1]
  by_cases c2 : f.rax = w.nr.SYS_FORK
  · rw [if_pos c2]
    rw [bind_pure_snd]
    exact lock_respected_fork w _ _ hs
  rw [if_neg c2]
  by_cases c3 : f.rax = w.nr.SYS_EXEC
  · rw [if_pos c3]
    rw [bind_pure_snd]
    exact lock_respected_exec w _ _ hs
  rw [if_neg c3]
  by_cases c4 : f.rax = w.nr.SYS_WAIT
  · rw [if_pos c4]
    rw [bind_pure_snd]
    exact lock_respected_wait w _ _ hs
  rw [if_neg c4]
  by_cases c5 : f.rax = w.nr.SYS_CREATE
  · rw [if_pos c5]
    rw [bind_pure_snd]
    exact lock_respected_create w _ _ _ hs
  rw [if_neg c5]
  by_cases c6 : f.rax = w.nr.SYS_REMOVE
  · rw [if_pos c6]
    rw [bind_pure_snd]
    exact lock_respected_remove w _ _ hs
  rw [if_neg c6]
  by_cases c7 : f.rax = w.nr.SYS_OPEN
  · rw [if_pos c7]
    rw [bind_pure_snd]
    exact lock_respected_open w _ _ hs
  rw [if_neg c7]
  by_cases c8 : f.rax = w.nr.SYS_FILESIZE
  · rw [if_pos c8]
    rw [bind_pure_snd]
    exact lock_respected_filesize w _ _ hs
  rw [if_neg c8]
  by_cases c9 : f.rax = w.nr.SYS_READ
  · rw [if_pos c9]
    rw [bind_pure_snd]
    exact lock_respected_read w _ _ _ _ hs
  rw [if_neg c9]
  by_cases c10 : f.rax = w.nr.SYS_WRITE
  · rw [if_pos c10]
    rw [bind_pure_snd]
    exact lock_respected_write w _ _ _ _ hs
  rw [if_neg c10]
  by_cases c11 : f.rax = w.nr.SYS_SEEK
  · rw [if_pos c11]
    rw [bind_pure_snd]
    exact lock_respected_seek _ _ _ hs
  rw [if_neg c11]
  by_cases c12 : f.rax = w.nr.SYS_TELL
  · rw [if_pos c12]
    rw [bind_pure_snd]
    exact lock_respected_tell w _ _ hs
  rw [if_neg c12]
  by_cases c13 : f.rax = w.nr.SYS_CLOSE
  · rw [if_pos c13]
    rw [bind_pure_snd]
    exact lock_respected_close w _ _ hs
  rw [if_neg c13]
  by_cases c14 : f.rax = w.nr.SYS_DUP2
  · rw [if_pos c14]
    rw [bind_pure_snd]
    exact lock_respected_dup2 w _ _ _ hs
  rw [if_neg c14]
  simp [K.bind, lock_respected, lock_discipline, lock_phase_run, lock_phase_step, h]

/-- C17. With the lock modelled as a held/free flag: for every handler and every input,
and for the dispatcher, if the lock is free on entry then, however the handler ends
(return, process termination or fault), the lock is free at the end, it was never
acquired while held, and every acquire was followed by exactly one collaborator call
and then the release. -/
theorem lock_free_on_every_exit (w : World) (s : KState) (h : s.syscall_lock = false) :
    lock_respected s (SyS_halt s).2 = true ∧
    (∀ status, lock_respected s (SyS_exit w status s : Outcome Unit × KState).2 = true) ∧
    (∀ thread_name, lock_respected s (SyS_fork w thread_name s).2 = true) ∧
    (∀ cmd_line, lock_respected s (SyS_exec w cmd_line s).2 = true) ∧
    (∀ pid, lock_respected s (SyS_wait w pid s).2 = true) ∧
    (∀ file initial_size, lock_respected s (SyS_create w file initial_size s).2 = true) ∧
    (∀ file, lock_respected s (SyS_remove w file s).2 = true) ∧
    (∀ file, lock_respected s (SyS_open w file s).2 = true) ∧
    (∀ fd, lock_respected s (SyS_filesize w fd s).2 = true) ∧
    (∀ fd buffer size, lock_respected s (SyS_read w fd buffer size s).2 = true) ∧
    (∀ fd buffer size, lock_respected s (SyS_write w fd buffer size s).2 = true) ∧
    (∀ fd position, lock_respected s (SyS_seek fd position s).2 = true) ∧
    (∀ fd, lock_respected s (SyS_tell w fd s).2 = true) ∧
    (∀ fd, lock_respected s (SyS_close w fd s).2 = true) ∧
    (∀ old_fd new_fd, lock_respected s (SyS_dup2 w old_fd new_fd s).2 = true) ∧
    (∀ f, lock_respected s (syscall_handler w f s).2 = true) :=
  ⟨lock_respected_halt s h,
   fun status => lock_respected_exit w s status h,
   fun thread_name => lock_respected_fork w s thread_name h,
   fun cmd_line => lock_respected_exec w s cmd_line h,
   fun pid => lock_respected_wait w s pid h,
   fun file initial_size => lock_respected_create w s file initial_size h,
   fun file => lock_respected_remove w s file h,
   fun file => lock_respected_open w s file h,
   fun fd => lock_respected_filesize w s fd h,
   fun fd buffer size => lock_respected_read w s fd buffer size h,
   fun fd buffer size => lock_respected_write w s fd buffer size h,
   fun fd position => lock_respected_seek s fd position h,
   fun fd => lock_respected_tell w s fd h,
   fun fd => lock_respected_close w s fd h,
   fun old_fd new_fd => lock_respected_dup2 w s old_fd new_fd h,
   fun f => lock_respected_dispatch w s f h⟩

/-- Witness of C17: the concrete process starts with the lock free; `write (1, buf, 5)`
logs acquire, `putbuf`, release, and `close (9)` of an unknown descriptor terminates
the process without touching the lock. -/
theorem lock_free_on_every_exit_witness :
    demo_state.syscall_lock = false ∧
    (SyS_write demo_world 1 4096 5 demo_state).2.log
      = [Effect.lock_acquire, Effect.putbuf 4096 5, Effect.lock_release] ∧
    lock_respected demo_state (SyS_write demo_world 1 4096 5 demo_state).2 = true ∧
    lock_respected demo_state (SyS_close demo_world 9 demo_state).2 = true :=
  ⟨rfl, by decide,
   (lock_free_on_every_exit demo_world demo_state rfl).2.2.2.2.2.2.2.2.2.2.1 1 4096 5,
   (lock_free_on_every_exit demo_world demo_state rfl).2.2.2.2.2.2.2.2.2.2.2.2.2.1 9⟩

/-- The discipline check rejects logs that break it: a call made while the lock is
held and never released, a second acquire, a release without a guarded call. -/
theorem lock_discipline_rejects :
    lock_discipline [Effect.lock_acquire, Effect.file_close 7] = false ∧
    lock_discipline [Effect.lock_acquire, Effect.lock_acquire] = false ∧
    lock_discipline [Effect.lock_acquire, Effect.lock_release] = false ∧
    lock_discipline [Effect.lock_acquire, Effect.input_getc, Effect.putbuf 0 0,
      Effect.lock_release] = false ∧
    lock_discipline [Effect.lock_acquire, Effect.printf_exit (-1), Effect.thread_exit]
      = false := by
  decide

end Pintos
